import Mathlib

/-
Shallow embedding of src/aws_collect.py (AWSResourceHierarchy).

The python program walks AWS regions, and inside each region walks VPCs and
attaches per-VPC resources (EC2+EBS, RDS/Aurora, EFS, FSx, Redshift) plus a
region-wide DynamoDB bucket, building a nested dict hierarchy.

Modelling conventions:
- a boto3 provider is a pure environment (`Env` / `RegionEnv`) supplying the
  result of every provider call the program can make;
- every paginated listing call is given to the program as a list of pages,
  each page either a list of records or an exception
  (`AwsErr.clientError` models botocore ClientError, which the python code
  catches at various levels; `AwsErr.otherError` models every other
  exception, e.g. a connection error, which the inner handlers do not catch
  and which therefore propagates to the region-level handler);
- python dicts whose keys matter are association lists with python's
  update-in-place-or-append semantics (`assocInsert` / `assocLookup`);
- record fields accessed with `.get(...)` are `Option`-valued, fields the
  code reads with raising `[...]` access are required fields;
- each provider API invocation is logged as a `Call`, and every translated
  function returns its result together with the list of calls it issued, in
  issue order.
-/

set_option maxHeartbeats 1000000

namespace AwsCollect

/-- Exceptions raised by provider calls: `clientError` models
botocore.exceptions.ClientError (with its error code); `otherError` models
every other exception (connection errors, etc.), which `except ClientError`
handlers in the source do not catch. -/
inductive AwsErr where
  | clientError (code : String)
  | otherError (msg : String)
  deriving DecidableEq, Repr

/-- Result of fetching one page of a paginated listing call. -/
abbrev PageResult (α : Type) := Except AwsErr (List α)

/-- True when an Except carries a value. -/
def isOkE {α : Type} : Except AwsErr α → Bool
  | .ok _ => true
  | .error _ => false

/-- True when an Except carries a non-ClientError exception. -/
def isOtherE {α : Type} : Except AwsErr α → Bool
  | .error (.otherError _) => true
  | _ => false

/-- Lookup in a python-dict modelled as an association list. -/
def assocLookup {β : Type} (m : List (String × β)) (k : String) : Option β :=
  match m with
  | [] => none
  | (k', v) :: rest => if k' = k then some v else assocLookup rest k

/-- Assignment `d[k] = v` on a python dict modelled as an association list:
an existing key keeps its position and gets the new value, a new key is
appended at the end. -/
def assocInsert {β : Type} (m : List (String × β)) (k : String) (v : β) :
    List (String × β) :=
  match m with
  | [] => [(k, v)]
  | (k', v') :: rest =>
    if k' = k then (k', v) :: rest else (k', v') :: assocInsert rest k v

/-- Python `d.get(k)` where `k` itself may be None. -/
def pyDictGet (m : List (String × String)) (k : Option String) : Option String :=
  match k with
  | none => none
  | some key => assocLookup m key

/- ------------------------------------------------------------------
Provider records (fields the source reads) and the output entry shapes
the source builds.
------------------------------------------------------------------ -/

/-- A VPC record; the source reads the raising access vpc['VpcId']. -/
structure Vpc where
  vpcId : String
  deriving DecidableEq, Repr

/-- A DB subnet group record; the source reads sg['DBSubnetGroupName'] and
sg['VpcId'] (raising accesses). -/
structure SubnetGroup where
  dbSubnetGroupName : String
  vpcId : String
  deriving DecidableEq, Repr

/-- An RDS DB instance record, with the `.get` fields the source reads.
`dbSubnetGroupName` models db.get('DBSubnetGroup', empty).get('DBSubnetGroupName'). -/
structure DbInstance where
  dbSubnetGroupName : Option String
  dbInstanceIdentifier : Option String
  engine : Option String
  dbInstanceClass : Option String
  multiAZ : Bool
  deriving DecidableEq, Repr

/-- The per-DB-instance entry the source appends. -/
structure DbInstanceEntry where
  dbInstanceId : Option String
  engine : Option String
  instanceClass : Option String
  multiAz : Bool
  deriving DecidableEq, Repr

/-- A member record inside a DB cluster's DBClusterMembers list. -/
structure DbClusterMember where
  dbInstanceIdentifier : Option String
  deriving DecidableEq, Repr

/-- An Aurora DB cluster record, with the `.get` fields the source reads. -/
structure DbCluster where
  dbSubnetGroup : Option String
  dbClusterIdentifier : Option String
  engine : Option String
  dbClusterMembers : List DbClusterMember
  deriving DecidableEq, Repr

/-- The per-cluster entry the source appends. -/
structure DbClusterEntry where
  clusterId : Option String
  engine : Option String
  clusterMembers : List (Option String)
  deriving DecidableEq, Repr

/-- The rds_instances value of a VPC's resource bundle. -/
structure RdsResources where
  dbInstances : List DbInstanceEntry
  clusters : List DbClusterEntry
  deriving DecidableEq, Repr

/-- An EFS file system record, with the `.get` fields the source reads. -/
structure EfsFileSystem where
  fileSystemId : Option String
  lifeCycleState : Option String
  performanceMode : Option String
  encrypted : Bool
  deriving DecidableEq, Repr

/-- An EFS mount target record; the source reads mt.get('VpcId'). -/
structure MountTarget where
  vpcId : Option String
  deriving DecidableEq, Repr

/-- The per-file-system entry the source appends for EFS. -/
structure EfsEntry where
  fileSystemId : Option String
  lifeCycleState : Option String
  performanceMode : Option String
  encrypted : Bool
  deriving DecidableEq, Repr

/-- An FSx file system record, with the `.get` fields the source reads. -/
structure FsxFileSystem where
  vpcId : Option String
  fileSystemId : Option String
  fileSystemType : Option String
  lifecycle : Option String
  storageCapacity : Option Nat
  subnetIds : List String
  deriving DecidableEq, Repr

/-- The per-file-system entry the source appends for FSx. -/
structure FsxEntry where
  fileSystemId : Option String
  fileSystemType : Option String
  lifecycleState : Option String
  storageCapacity : Option Nat
  subnetIds : List String
  deriving DecidableEq, Repr

/-- A Redshift cluster record, with the `.get` fields the source reads. -/
structure RedshiftCluster where
  vpcId : Option String
  clusterIdentifier : Option String
  nodeType : Option String
  numberOfNodes : Option Nat
  clusterStatus : Option String
  deriving DecidableEq, Repr

/-- The per-cluster entry the source appends for Redshift. -/
structure RedshiftClusterEntry where
  clusterIdentifier : Option String
  nodeType : Option String
  numberOfNodes : Option Nat
  clusterStatus : Option String
  deriving DecidableEq, Repr

/-- The redshift_clusters value of a VPC's resource bundle. -/
structure RedshiftResources where
  clusters : List RedshiftClusterEntry
  deriving DecidableEq, Repr

/-- A DynamoDB describe_table result ('Table'), with the fields the source
reads; `itemCount` already carries the get('ItemCount', 0) default, and
`billingMode` models get('BillingModeSummary', empty).get('BillingMode'). -/
structure TableDetails where
  tableStatus : Option String
  itemCount : Nat
  billingMode : Option String
  deriving DecidableEq, Repr

/-- The per-table entry the source appends for DynamoDB. -/
structure TableEntry where
  tableName : String
  tableStatus : Option String
  itemCount : Nat
  billingMode : String
  deriving DecidableEq, Repr

/-- The Ebs sub-record of a block device mapping; `none` for `volumeId`
covers both a missing 'VolumeId' key and a falsy Ebs dict. -/
structure Ebs where
  volumeId : Option String
  deleteOnTermination : Bool
  deriving DecidableEq, Repr

/-- A block device mapping record of an EC2 instance. -/
structure BlockDeviceMapping where
  deviceName : Option String
  ebs : Option Ebs
  deriving DecidableEq, Repr

/-- Opaque provider record stored verbatim (subnets, route tables, gateways,
security groups, tags): the source never inspects their fields. -/
abbrev Rec := String

/-- An EC2 instance record, with the `.get` fields the source reads;
`stateName` models instance.get('State', empty).get('Name'). -/
structure Ec2Instance where
  instanceId : Option String
  instanceType : Option String
  stateName : Option String
  subnetId : Option String
  securityGroups : List Rec
  tags : List Rec
  blockDeviceMappings : List BlockDeviceMapping
  deriving DecidableEq, Repr

/-- A reservation record from describe_instances. -/
structure Reservation where
  instances : List Ec2Instance
  deriving DecidableEq, Repr

/-- An EBS volume record from describe_volumes, with the fields the source
reads; `encrypted` carries the get('Encrypted', False) default. -/
structure Volume where
  size : Option Nat
  volumeType : Option String
  iops : Option Nat
  encrypted : Bool
  state : Option String
  deriving DecidableEq, Repr

/-- The per-volume entry the source appends; `volumeDetails = none` models
the empty dict returned when the volume lookup fails or returns nothing. -/
structure EbsVolumeEntry where
  volumeId : String
  deviceName : Option String
  deleteOnTermination : Bool
  volumeDetails : Option Volume
  deriving DecidableEq, Repr

/-- The per-instance entry the source appends for EC2. -/
structure Ec2InstanceEntry where
  instanceId : Option String
  instanceType : Option String
  state : Option String
  subnetId : Option String
  securityGroups : List Rec
  tags : List Rec
  ebsVolumes : List EbsVolumeEntry
  deriving DecidableEq, Repr

/-- The network_components value of a VPC entry. -/
structure NetworkComponents where
  subnets : List Rec
  routeTables : List Rec
  internetGateways : List Rec
  natGateways : List Rec
  deriving DecidableEq, Repr

/-- The resources dict of a VPC entry: a key is present (some) exactly when
the source put that category's key in the dict. -/
structure ResourceBundle where
  ec2Instances : Option (List Ec2InstanceEntry)
  rdsInstances : Option RdsResources
  efsFilesystems : Option (List EfsEntry)
  fsxFilesystems : Option (List FsxEntry)
  redshiftClusters : Option RedshiftResources
  deriving DecidableEq, Repr

/-- The value stored at hierarchy[region][vpc_id]. -/
structure VpcEntry where
  vpcInfo : Vpc
  networkComponents : NetworkComponents
  securityGroups : List Rec
  resources : ResourceBundle
  deriving DecidableEq, Repr

/-- A value of the per-region dict: either a VPC entry (at a VPC-id key) or
the region-wide DynamoDB bucket (at the literal key "region_wide"). -/
inductive RegionValue where
  | vpcData (entry : VpcEntry)
  | regionWide (dynamodbTables : List TableEntry)
  deriving DecidableEq, Repr

/-- The per-region dict hierarchy[region]. -/
abbrev RegionMap := List (String × RegionValue)

/-- The whole hierarchy (region name to region dict). -/
abbrev Inventory := List (String × RegionMap)

/- ------------------------------------------------------------------
The provider environment and the call log.
------------------------------------------------------------------ -/

/-- All provider data reachable from one region's clients. Paginated
listing calls are given as page lists; keyed describe calls are functions
of the key. -/
structure RegionEnv where
  vpcsPages : List (PageResult Vpc)
  subnetsPages : String → List (PageResult Rec)
  routeTablesPages : String → List (PageResult Rec)
  internetGatewaysPages : String → List (PageResult Rec)
  natGatewaysPages : String → List (PageResult Rec)
  securityGroupsPages : String → List (PageResult Rec)
  reservationsPages : String → List (PageResult Reservation)
  volumesResult : String → Except AwsErr (List Volume)
  dbSubnetGroupsPages : List (PageResult SubnetGroup)
  dbInstancesPages : List (PageResult DbInstance)
  dbClustersPages : List (PageResult DbCluster)
  efsPages : List (PageResult EfsFileSystem)
  mountTargetsResult : Option String → Except AwsErr (List MountTarget)
  fsxPages : List (PageResult FsxFileSystem)
  redshiftPages : List (PageResult RedshiftCluster)
  tableNamesPages : List (PageResult String)
  tableDetailsResult : String → Except AwsErr TableDetails

/-- The whole provider: the region discovery call plus per-region data. -/
structure Env where
  describeRegionsResult : Except AwsErr (List String)
  regionData : String → RegionEnv

/-- One provider API invocation, as recorded in the call log. -/
inductive Call where
  | describeRegions
  | describeVpcs (region : String)
  | describeSubnets (region : String) (vpcId : String)
  | describeRouteTables (region : String) (vpcId : String)
  | describeInternetGateways (region : String) (vpcId : String)
  | describeNatGateways (region : String) (vpcId : String)
  | describeSecurityGroups (region : String) (vpcId : String)
  | describeInstances (region : String) (vpcId : String)
  | describeVolumes (region : String) (volumeId : String)
  | describeDbSubnetGroups (region : String)
  | describeDbInstances (region : String)
  | describeDbClusters (region : String)
  | describeEfsFileSystems (region : String)
  | describeMountTargets (region : String) (fileSystemId : Option String)
  | describeFsxFileSystems (region : String)
  | describeRedshiftClusters (region : String)
  | listTables (region : String)
  | describeTable (region : String) (tableName : String)
  deriving DecidableEq, Repr

/-- The resource category a call belongs to, for exclusion-gating claims:
the six excludable categories gate exactly these calls; VPC, network and
security-group discovery belong to no excludable category. -/
def callCategory : Call → Option String
  | .describeInstances _ _ => some "ec2"
  | .describeVolumes _ _ => some "ec2"
  | .describeDbSubnetGroups _ => some "rds"
  | .describeDbInstances _ => some "rds"
  | .describeDbClusters _ => some "rds"
  | .describeEfsFileSystems _ => some "efs"
  | .describeMountTargets _ _ => some "efs"
  | .describeFsxFileSystems _ => some "fsx"
  | .describeRedshiftClusters _ => some "redshift"
  | .listTables _ => some "dynamodb"
  | .describeTable _ _ => some "dynamodb"
  | _ => none

/- ------------------------------------------------------------------
Translations of the source functions. Each returns its value together
with the provider calls it issued, in order.
------------------------------------------------------------------ -/

/-- Sequencing of two logged fallible steps: python control flow where an
exception in the first step propagates (keeping the calls already made) and
otherwise the second step runs, logs appended. -/
def stepThen {α β : Type} (x : Except AwsErr α × List Call)
    (f : α → Except AwsErr β × List Call) : Except AwsErr β × List Call :=
  match x with
  | (.error e, cs) => (.error e, cs)
  | (.ok a, cs) =>
    let y := f a
    (y.1, cs ++ y.2)

/-- Inner page loop of _get_paginated_results: pages are drained in order
into the accumulator; a ClientError while fetching a page makes the whole
call return the empty list (the python handler discards the accumulator), a
non-ClientError exception propagates. -/
def getPaginatedResultsGo {α : Type} (acc : List α) :
    List (PageResult α) → Except AwsErr (List α)
  | [] => .ok acc
  | page :: rest =>
    match page with
    | .ok items => getPaginatedResultsGo (acc ++ items) rest
    | .error (.clientError _) => .ok []
    | .error (.otherError m) => .error (.otherError m)

/-- Translation of _get_paginated_results (src/aws_collect.py lines 97-109). -/
def getPaginatedResults {α : Type} (pages : List (PageResult α)) :
    Except AwsErr (List α) :=
  getPaginatedResultsGo [] pages

/-- One paginated listing call: logs the call and drains the given pages. -/
def pageCall {α : Type} (c : Call) (pages : List (PageResult α)) :
    Except AwsErr (List α) × List Call :=
  (getPaginatedResults pages, [c])

/-- Translation of _get_vpcs. -/
def getVpcs (renv : RegionEnv) (region : String) :
    Except AwsErr (List Vpc) × List Call :=
  pageCall (Call.describeVpcs region) renv.vpcsPages

/-- Translation of _get_network_components: four paginated listing calls in
source order. -/
def getNetworkComponents (renv : RegionEnv) (region vpcId : String) :
    Except AwsErr NetworkComponents × List Call :=
  stepThen (pageCall (Call.describeSubnets region vpcId) (renv.subnetsPages vpcId)) fun subnets =>
  stepThen (pageCall (Call.describeRouteTables region vpcId) (renv.routeTablesPages vpcId)) fun routeTables =>
  stepThen (pageCall (Call.describeInternetGateways region vpcId) (renv.internetGatewaysPages vpcId)) fun igws =>
  stepThen (pageCall (Call.describeNatGateways region vpcId) (renv.natGatewaysPages vpcId)) fun nats =>
  (.ok { subnets := subnets, routeTables := routeTables,
         internetGateways := igws, natGateways := nats }, [])

/-- Translation of _get_security_groups. -/
def getSecurityGroups (renv : RegionEnv) (region vpcId : String) :
    Except AwsErr (List Rec) × List Call :=
  pageCall (Call.describeSecurityGroups region vpcId) (renv.securityGroupsPages vpcId)

/-- Translation of _get_volume_details: describe_volumes for one volume id;
an empty Volumes list gives the empty dict (none), a ClientError is caught
and gives the empty dict, any other exception propagates. -/
def getVolumeDetails (renv : RegionEnv) (region volumeId : String) :
    Except AwsErr (Option Volume) × List Call :=
  (match renv.volumesResult volumeId with
   | .error (.clientError _) => .ok none
   | .error (.otherError m) => .error (.otherError m)
   | .ok vols => .ok vols.head?
  , [Call.describeVolumes region volumeId])

/-- Inner loop of _get_ec2_with_ebs over one instance's block device
mappings: a mapping contributes a volume entry when it has an Ebs record
carrying a VolumeId. -/
def buildEbsVolumes (renv : RegionEnv) (region : String) :
    List BlockDeviceMapping → Except AwsErr (List EbsVolumeEntry) × List Call
  | [] => (.ok [], [])
  | bd :: rest =>
    match bd.ebs with
    | none => buildEbsVolumes renv region rest
    | some e =>
      match e.volumeId with
      | none => buildEbsVolumes renv region rest
      | some vid =>
        stepThen (getVolumeDetails renv region vid) fun vd =>
        stepThen (buildEbsVolumes renv region rest) fun restEntries =>
        (.ok ({ volumeId := vid, deviceName := bd.deviceName,
                deleteOnTermination := e.deleteOnTermination,
                volumeDetails := vd } :: restEntries), [])

/-- Loop of _get_ec2_with_ebs over the instances of one reservation. -/
def buildInstanceEntries (renv : RegionEnv) (region : String) :
    List Ec2Instance → Except AwsErr (List Ec2InstanceEntry) × List Call
  | [] => (.ok [], [])
  | inst :: rest =>
    stepThen (buildEbsVolumes renv region inst.blockDeviceMappings) fun ebsVolumes =>
    stepThen (buildInstanceEntries renv region rest) fun restEntries =>
    (.ok ({ instanceId := inst.instanceId, instanceType := inst.instanceType,
            state := inst.stateName, subnetId := inst.subnetId,
            securityGroups := inst.securityGroups, tags := inst.tags,
            ebsVolumes := ebsVolumes } :: restEntries), [])

/-- Loop of _get_ec2_with_ebs over reservations. -/
def buildReservationEntries (renv : RegionEnv) (region : String) :
    List Reservation → Except AwsErr (List Ec2InstanceEntry) × List Call
  | [] => (.ok [], [])
  | r :: rest =>
    stepThen (buildInstanceEntries renv region r.instances) fun entries =>
    stepThen (buildReservationEntries renv region rest) fun restEntries =>
    (.ok (entries ++ restEntries), [])

/-- Translation of _get_ec2_with_ebs: describe_instances filtered
server-side by vpc id, then per-volume describe calls. -/
def getEc2WithEbs (renv : RegionEnv) (region vpcId : String) :
    Except AwsErr (List Ec2InstanceEntry) × List Call :=
  stepThen (pageCall (Call.describeInstances region vpcId) (renv.reservationsPages vpcId)) fun reservations =>
  buildReservationEntries renv region reservations

/-- Translation of _get_db_subnet_groups: one paginated listing call, then
the name-to-VpcId dict built by a python dict comprehension (later
duplicates overwrite earlier ones). -/
def getDbSubnetGroups (renv : RegionEnv) (region : String) :
    Except AwsErr (List (String × String)) × List Call :=
  stepThen (pageCall (Call.describeDbSubnetGroups region) renv.dbSubnetGroupsPages) fun sgs =>
  (.ok (sgs.foldl (fun m sg => assocInsert m sg.dbSubnetGroupName sg.vpcId) []), [])

/-- The entry extraction for one RDS DB instance. -/
def mkDbInstanceEntry (db : DbInstance) : DbInstanceEntry :=
  { dbInstanceId := db.dbInstanceIdentifier, engine := db.engine,
    instanceClass := db.dbInstanceClass, multiAz := db.multiAZ }

/-- The entry extraction for one Aurora cluster. -/
def mkDbClusterEntry (c : DbCluster) : DbClusterEntry :=
  { clusterId := c.dbClusterIdentifier, engine := c.engine,
    clusterMembers := c.dbClusterMembers.map (fun m => m.dbInstanceIdentifier) }

/-- Translation of _get_rds_resources: list all DB instances and clusters
(no server-side VPC filter), keep exactly those whose subnet-group name
looks up in the pre-fetched dict to this VPC's id. -/
def getRdsResources (renv : RegionEnv) (region vpcId : String)
    (dbSubnetGroups : List (String × String)) :
    Except AwsErr RdsResources × List Call :=
  stepThen (pageCall (Call.describeDbInstances region) renv.dbInstancesPages) fun dbs =>
  stepThen (pageCall (Call.describeDbClusters region) renv.dbClustersPages) fun cls =>
  (.ok { dbInstances :=
           (dbs.filter (fun db => pyDictGet dbSubnetGroups db.dbSubnetGroupName == some vpcId)).map mkDbInstanceEntry,
         clusters :=
           (cls.filter (fun c => pyDictGet dbSubnetGroups c.dbSubnetGroup == some vpcId)).map mkDbClusterEntry }, [])

/-- The entry extraction for one EFS file system. -/
def mkEfsEntry (fs : EfsFileSystem) : EfsEntry :=
  { fileSystemId := fs.fileSystemId, lifeCycleState := fs.lifeCycleState,
    performanceMode := fs.performanceMode, encrypted := fs.encrypted }

/-- Inner mount-target loop of _get_efs_resources: the file system's entry
is appended at the first mount target whose VpcId equals this VPC, and the
search stops there (the python break). -/
def efsScanMountTargets (entry : EfsEntry) (vpcId : String) :
    List MountTarget → List EfsEntry
  | [] => []
  | mt :: rest =>
    if mt.vpcId == some vpcId then [entry]
    else efsScanMountTargets entry vpcId rest

/-- Outer loop of _get_efs_resources over listed file systems: the
mount-target describe call is made per file system; a ClientError there
skips that file system (warning) and continues, any other exception
propagates. -/
def efsLoop (renv : RegionEnv) (region vpcId : String) :
    List EfsFileSystem → Except AwsErr (List EfsEntry) × List Call
  | [] => (.ok [], [])
  | fs :: rest =>
    let c := Call.describeMountTargets region fs.fileSystemId
    match renv.mountTargetsResult fs.fileSystemId with
    | .error (.otherError m) => (.error (.otherError m), [c])
    | .error (.clientError _) =>
      let r := efsLoop renv region vpcId rest
      (r.1, c :: r.2)
    | .ok mts =>
      let r := efsLoop renv region vpcId rest
      ((r.1).map (fun tail => efsScanMountTargets (mkEfsEntry fs) vpcId mts ++ tail),
       c :: r.2)

/-- Translation of _get_efs_resources. -/
def getEfsResources (renv : RegionEnv) (region vpcId : String) :
    Except AwsErr (List EfsEntry) × List Call :=
  stepThen (pageCall (Call.describeEfsFileSystems region) renv.efsPages) fun fss =>
  efsLoop renv region vpcId fss

/-- The entry extraction for one FSx file system. -/
def mkFsxEntry (fs : FsxFileSystem) : FsxEntry :=
  { fileSystemId := fs.fileSystemId, fileSystemType := fs.fileSystemType,
    lifecycleState := fs.lifecycle, storageCapacity := fs.storageCapacity,
    subnetIds := fs.subnetIds }

/-- Translation of _get_fsx_resources: list without VPC filter, keep the
records whose own VpcId field equals this VPC. -/
def getFsxResources (renv : RegionEnv) (region vpcId : String) :
    Except AwsErr (List FsxEntry) × List Call :=
  stepThen (pageCall (Call.describeFsxFileSystems region) renv.fsxPages) fun fss =>
  (.ok ((fss.filter (fun fs => fs.vpcId == some vpcId)).map mkFsxEntry), [])

/-- The entry extraction for one Redshift cluster. -/
def mkRedshiftEntry (c : RedshiftCluster) : RedshiftClusterEntry :=
  { clusterIdentifier := c.clusterIdentifier, nodeType := c.nodeType,
    numberOfNodes := c.numberOfNodes, clusterStatus := c.clusterStatus }

/-- Translation of _get_redshift_resources. -/
def getRedshiftResources (renv : RegionEnv) (region vpcId : String) :
    Except AwsErr RedshiftResources × List Call :=
  stepThen (pageCall (Call.describeRedshiftClusters region) renv.redshiftPages) fun cls =>
  (.ok { clusters := (cls.filter (fun c => c.vpcId == some vpcId)).map mkRedshiftEntry }, [])

/-- The entry extraction for one DynamoDB table. -/
def mkTableEntry (name : String) (td : TableDetails) : TableEntry :=
  { tableName := name, tableStatus := td.tableStatus, itemCount := td.itemCount,
    billingMode := td.billingMode.getD "PROVISIONED" }

/-- Per-table describe loop of _get_dynamodb_tables: a ClientError on one
table's describe skips that table and continues, any other exception
propagates. -/
def dynamoDescribeLoop (renv : RegionEnv) (region : String) :
    List String → Except AwsErr (List TableEntry) × List Call
  | [] => (.ok [], [])
  | name :: rest =>
    let c := Call.describeTable region name
    match renv.tableDetailsResult name with
    | .error (.otherError m) => (.error (.otherError m), [c])
    | .error (.clientError _) =>
      let r := dynamoDescribeLoop renv region rest
      (r.1, c :: r.2)
    | .ok td =>
      let r := dynamoDescribeLoop renv region rest
      ((r.1).map (fun tail => mkTableEntry name td :: tail), c :: r.2)

/-- Translation of _get_dynamodb_tables. -/
def getDynamodbTables (renv : RegionEnv) (region : String) :
    Except AwsErr (List TableEntry) × List Call :=
  stepThen (pageCall (Call.listTables region) renv.tableNamesPages) fun names =>
  dynamoDescribeLoop renv region names

/-- Assignment hierarchy[region][key] = v on the defaultdict-of-dict
hierarchy: the region's dict is the existing one or fresh empty. -/
def hierInsert (inv : Inventory) (region key : String) (v : RegionValue) :
    Inventory :=
  let rmap := (assocLookup inv region).getD []
  assocInsert inv region (assocInsert rmap key v)

/-- Gate on the exclusion set, exactly as the source's conditional dict
keys: an excluded category contributes no key (none) and issues no call,
a non-excluded one runs its fetch and wraps the value in some. -/
def gateFetch {γ : Type} (excluded : Prop) [Decidable excluded]
    (fetch : Except AwsErr γ × List Call) :
    Except AwsErr (Option γ) × List Call :=
  if excluded then (.ok none, [])
  else stepThen fetch fun r => (.ok (some r), [])

/-- The loop body of _build_region_hierarchy for one VPC: the resources
dict is built first (categories in source order, each gated by the
exclusion set, which is exactly when the corresponding client is not None),
then the entry dict evaluates network components and security groups. -/
def buildVpcEntry (renv : RegionEnv) (region : String) (excl : List String)
    (dbSubnetGroups : List (String × String)) (vpc : Vpc) :
    Except AwsErr VpcEntry × List Call :=
  stepThen (gateFetch ("ec2" ∈ excl) (getEc2WithEbs renv region vpc.vpcId)) fun ec2? =>
  stepThen (gateFetch ("rds" ∈ excl) (getRdsResources renv region vpc.vpcId dbSubnetGroups)) fun rds? =>
  stepThen (gateFetch ("efs" ∈ excl) (getEfsResources renv region vpc.vpcId)) fun efs? =>
  stepThen (gateFetch ("fsx" ∈ excl) (getFsxResources renv region vpc.vpcId)) fun fsx? =>
  stepThen (gateFetch ("redshift" ∈ excl) (getRedshiftResources renv region vpc.vpcId)) fun rs? =>
  stepThen (getNetworkComponents renv region vpc.vpcId) fun nc =>
  stepThen (getSecurityGroups renv region vpc.vpcId) fun sgs =>
  (.ok { vpcInfo := vpc, networkComponents := nc, securityGroups := sgs,
         resources := { ec2Instances := ec2?, rdsInstances := rds?,
                        efsFilesystems := efs?, fsxFilesystems := fsx?,
                        redshiftClusters := rs? } }, [])

/-- The VPC loop of _build_region_hierarchy: each successful iteration
assigns hierarchy[region][vpc_id]; an exception aborts the loop but keeps
the hierarchy mutations already made (python state survives the raise). -/
def buildVpcLoop (renv : RegionEnv) (region : String) (excl : List String)
    (dbSubnetGroups : List (String × String)) (inv : Inventory) :
    List Vpc → Inventory × Option AwsErr × List Call
  | [] => (inv, none, [])
  | vpc :: rest =>
    match buildVpcEntry renv region excl dbSubnetGroups vpc with
    | (.error e, cs) => (inv, some e, cs)
    | (.ok entry, cs) =>
      let inv2 := hierInsert inv region vpc.vpcId (RegionValue.vpcData entry)
      let r := buildVpcLoop renv region excl dbSubnetGroups inv2 rest
      (r.1, r.2.1, cs ++ r.2.2)

/-- The once-per-region DB subnet group pre-fetch of
_build_region_hierarchy line 57: performed only when the rds client exists
(rds not excluded), else the empty dict with no call. -/
def regionDbSubnetDict (renv : RegionEnv) (region : String)
    (excl : List String) : Except AwsErr (List (String × String)) × List Call :=
  if "rds" ∈ excl then (.ok [], []) else getDbSubnetGroups renv region

/-- Translation of _build_region_hierarchy: VPC discovery, the
once-per-region DB subnet group pre-fetch (only when rds is not excluded),
the per-VPC loop, then the region-wide DynamoDB bucket; every exception is
caught at this level (ClientError and everything else alike), leaving
whatever hierarchy mutations had already been made. -/
def buildRegionHierarchy (renv : RegionEnv) (excl : List String)
    (region : String) (inv : Inventory) : Inventory × List Call :=
  match getVpcs renv region with
  | (.error _, cs) => (inv, cs)
  | (.ok vpcs, cs) =>
    match regionDbSubnetDict renv region excl with
    | (.error _, cs2) => (inv, cs ++ cs2)
    | (.ok dbSubnetGroups, cs2) =>
      let r := buildVpcLoop renv region excl dbSubnetGroups inv vpcs
      match r.2.1 with
      | some _ => (r.1, cs ++ cs2 ++ r.2.2)
      | none =>
        if "dynamodb" ∈ excl then (r.1, cs ++ cs2 ++ r.2.2)
        else
          match getDynamodbTables renv region with
          | (.error _, cs3) => (r.1, cs ++ cs2 ++ r.2.2 ++ cs3)
          | (.ok tables, cs3) =>
            (hierInsert r.1 region "region_wide" (RegionValue.regionWide tables),
             cs ++ cs2 ++ r.2.2 ++ cs3)

/-- The region loop of build_hierarchy: regions processed in order, each
through buildRegionHierarchy (which never lets an exception escape). -/
def processRegions (env : Env) (excl : List String) (inv : Inventory) :
    List String → Inventory × List Call
  | [] => (inv, [])
  | region :: rest =>
    let r := buildRegionHierarchy (env.regionData region) excl region inv
    let r2 := processRegions env excl r.1 rest
    (r2.1, r.2 ++ r2.2)

/-- Translation of build_hierarchy: with no (or an empty) explicit region
list, regions are discovered via describe_regions, whose ClientError is
caught and yields the empty hierarchy; any other exception there is NOT
caught and propagates to the caller as an error result. -/
def buildHierarchy (env : Env) (excl : List String)
    (regions : Option (List String)) : Except AwsErr Inventory × List Call :=
  match regions with
  | some (r :: rs) =>
    let p := processRegions env excl [] (r :: rs)
    (.ok p.1, p.2)
  | _ =>
    match env.describeRegionsResult with
    | .error (.clientError _) => (.ok [], [Call.describeRegions])
    | .error (.otherError m) => (.error (.otherError m), [Call.describeRegions])
    | .ok discovered =>
      let p := processRegions env excl [] discovered
      (.ok p.1, Call.describeRegions :: p.2)

/-- Translation of the EXCLUDABLE_RESOURCES list at the top of the source. -/
def EXCLUDABLE_RESOURCES : List String :=
  ["ec2", "rds", "efs", "fsx", "redshift", "dynamodb"]

/-- Translation of AWSResourceHierarchy.__init__'s handling of
excluded_resources: set(excluded_resources) if truthy else the empty set;
no validation of the names happens here. -/
def initExcludedResources (excludedResources : Option (List String)) :
    List String :=
  match excludedResources with
  | none => []
  | some l => l.dedup

/-- ASCII lowering of one character (the six category names are ASCII). -/
def asciiLowerChar (c : Char) : Char :=
  if 'A' ≤ c ∧ c ≤ 'Z' then Char.ofNat (c.toNat + 32) else c

/-- ASCII lowering of a string, written structurally so it computes. -/
def asciiLower (s : String) : String :=
  String.mk (s.data.map asciiLowerChar)

/-- Modelled from the spec and the click.Choice declaration on main's
--exclude option (src/aws_collect.py lines 338-343): click itself is not
part of this repository, but the option declares
type=click.Choice(EXCLUDABLE_RESOURCES, case_sensitive=False), whose
documented contract is to accept a value exactly when it matches one of the
choices up to ASCII case, and to reject the invocation with a usage error
otherwise. -/
def mainExcludeAccepted (value : String) : Bool :=
  EXCLUDABLE_RESOURCES.any (fun c => asciiLower c == asciiLower value)

/- ------------------------------------------------------------------
Spec-level helper definitions used in claim statements.
------------------------------------------------------------------ -/

/-- Lookup hierarchy[region][key]. -/
def invLookup2 (inv : Inventory) (region key : String) : Option RegionValue :=
  (assocLookup inv region).bind (fun rm => assocLookup rm key)

/-- Two mount-target call results that differ at most by a reordering of a
successfully returned mount-target list. -/
def mtSim : Except AwsErr (List MountTarget) → Except AwsErr (List MountTarget) → Prop
  | .ok l, .ok l' => l.Perm l'
  | a, b => a = b

/-- All key-value pairs of all region maps of an inventory satisfy P. -/
def invAll (P : String × RegionValue → Prop) (inv : Inventory) : Prop :=
  ∀ rm ∈ inv, ∀ p ∈ rm.2, P p

/-- Whether a VPC resource bundle carries the given category's key. -/
def bundleHasCategory (b : ResourceBundle) (cat : String) : Bool :=
  match cat with
  | "ec2" => b.ec2Instances.isSome
  | "rds" => b.rdsInstances.isSome
  | "efs" => b.efsFilesystems.isSome
  | "fsx" => b.fsxFilesystems.isSome
  | "redshift" => b.redshiftClusters.isSome
  | _ => false

/- ------------------------------------------------------------------
Concrete provider environments used by witnesses and counterexamples.
------------------------------------------------------------------ -/

/-- A region with no data at all: every listing drains to the empty list
and every describe succeeds trivially. -/
def emptyRegionEnv : RegionEnv where
  vpcsPages := []
  subnetsPages := fun _ => []
  routeTablesPages := fun _ => []
  internetGatewaysPages := fun _ => []
  natGatewaysPages := fun _ => []
  securityGroupsPages := fun _ => []
  reservationsPages := fun _ => []
  volumesResult := fun _ => Except.ok []
  dbSubnetGroupsPages := []
  dbInstancesPages := []
  dbClustersPages := []
  efsPages := []
  mountTargetsResult := fun _ => Except.ok []
  fsxPages := []
  redshiftPages := []
  tableNamesPages := []
  tableDetailsResult := fun _ =>
    Except.ok { tableStatus := none, itemCount := 0, billingMode := none }

/-- A fixture EBS volume record. -/
def richVol : Volume :=
  { size := some 20, volumeType := some "gp3", iops := some 3000,
    encrypted := true, state := some "in-use" }

/-- A fixture EC2 instance with one EBS-backed block device mapping. -/
def richInstance : Ec2Instance :=
  { instanceId := some "i-1", instanceType := some "t3.micro",
    stateName := some "running", subnetId := some "subnet-1",
    securityGroups := [], tags := [],
    blockDeviceMappings :=
      [{ deviceName := some "/dev/sda1",
         ebs := some { volumeId := some "vol-a", deleteOnTermination := true } }] }

/-- A fixture DB instance whose subnet group maps to vpc-1. -/
def richDb : DbInstance :=
  { dbSubnetGroupName := some "grp1", dbInstanceIdentifier := some "db-1",
    engine := some "postgres", dbInstanceClass := some "db.t3.micro",
    multiAZ := true }

/-- A fixture DB instance whose subnet group name is absent from the
region's subnet-group mapping. -/
def richDbOrphan : DbInstance :=
  { dbSubnetGroupName := some "no-such-group",
    dbInstanceIdentifier := some "db-2", engine := some "mysql",
    dbInstanceClass := some "db.t3.micro", multiAZ := false }

/-- A fixture Aurora cluster on grp1. -/
def richCluster : DbCluster :=
  { dbSubnetGroup := some "grp1", dbClusterIdentifier := some "aur-1",
    engine := some "aurora-postgresql",
    dbClusterMembers := [{ dbInstanceIdentifier := some "db-1" }] }

/-- A fixture EFS file system. -/
def richFs : EfsFileSystem :=
  { fileSystemId := some "fs-1", lifeCycleState := some "available",
    performanceMode := some "generalPurpose", encrypted := true }

/-- A fixture FSx file system in vpc-1. -/
def richFsx : FsxFileSystem :=
  { vpcId := some "vpc-1", fileSystemId := some "fsx-1",
    fileSystemType := some "LUSTRE", lifecycle := some "AVAILABLE",
    storageCapacity := some 1200, subnetIds := ["subnet-1"] }

/-- A fixture Redshift cluster in vpc-1. -/
def richRedshift : RedshiftCluster :=
  { vpcId := some "vpc-1", clusterIdentifier := some "rs-1",
    nodeType := some "dc2.large", numberOfNodes := some 2,
    clusterStatus := some "available" }

/-- A fixture DynamoDB table description. -/
def richTable : TableDetails :=
  { tableStatus := some "ACTIVE", itemCount := 42,
    billingMode := some "PAY_PER_REQUEST" }

/-- A region with two VPCs and every resource category populated; the EFS
file system's first mount target is in a foreign VPC so that membership
needs scanning past it. -/
def richRegionEnv : RegionEnv :=
  { emptyRegionEnv with
    vpcsPages := [Except.ok [{ vpcId := "vpc-1" }, { vpcId := "vpc-2" }]]
    securityGroupsPages := fun v => [Except.ok ["sg-of-" ++ v]]
    reservationsPages := fun v =>
      if v = "vpc-1" then [Except.ok [{ instances := [richInstance] }]] else []
    volumesResult := fun _ => Except.ok [richVol]
    dbSubnetGroupsPages := [Except.ok [{ dbSubnetGroupName := "grp1", vpcId := "vpc-1" }]]
    dbInstancesPages := [Except.ok [richDb, richDbOrphan]]
    dbClustersPages := [Except.ok [richCluster]]
    efsPages := [Except.ok [richFs]]
    mountTargetsResult := fun fid =>
      if fid = some "fs-1" then
        Except.ok [{ vpcId := some "vpc-0" }, { vpcId := some "vpc-1" }]
      else Except.ok []
    fsxPages := [Except.ok [richFsx]]
    redshiftPages := [Except.ok [richRedshift]]
    tableNamesPages := [Except.ok ["tbl1"]]
    tableDetailsResult := fun _ => Except.ok richTable }

/-- The rich single-region provider. -/
def envRich : Env where
  describeRegionsResult := Except.ok ["r1"]
  regionData := fun _ => richRegionEnv

/-- The C9 scenario: one region, one VPC, one EC2 instance carrying two
EBS-backed block device mappings. -/
def c9Instance : Ec2Instance :=
  { instanceId := some "i-9", instanceType := some "t2.micro",
    stateName := some "running", subnetId := some "subnet-9",
    securityGroups := [], tags := [],
    blockDeviceMappings :=
      [{ deviceName := some "/dev/sda1",
         ebs := some { volumeId := some "vol-a", deleteOnTermination := true } },
       { deviceName := some "/dev/sdb",
         ebs := some { volumeId := some "vol-b", deleteOnTermination := false } }] }

/-- The C9 scenario region. -/
def c9RegionEnv : RegionEnv :=
  { emptyRegionEnv with
    vpcsPages := [Except.ok [{ vpcId := "vpc-1" }]]
    reservationsPages := fun v =>
      if v = "vpc-1" then [Except.ok [{ instances := [c9Instance] }]] else []
    volumesResult := fun _ => Except.ok [richVol] }

/-- The C9 scenario provider. -/
def envC9 : Env where
  describeRegionsResult := Except.ok ["us-east-1"]
  regionData := fun _ => c9RegionEnv

/-- The VPC entry the C9 scenario is expected to produce: one instance
with two EBS volume entries, empty rds and efs values, no fsx or redshift
key. -/
def c9Entry : VpcEntry where
  vpcInfo := { vpcId := "vpc-1" }
  networkComponents :=
    { subnets := [], routeTables := [], internetGateways := [], natGateways := [] }
  securityGroups := []
  resources :=
    { ec2Instances := some
        [{ instanceId := some "i-9", instanceType := some "t2.micro",
           state := some "running", subnetId := some "subnet-9",
           securityGroups := [], tags := [],
           ebsVolumes :=
             [{ volumeId := "vol-a", deviceName := some "/dev/sda1",
                deleteOnTermination := true, volumeDetails := some richVol },
              { volumeId := "vol-b", deviceName := some "/dev/sdb",
                deleteOnTermination := false, volumeDetails := some richVol }] }]
      rdsInstances := some { dbInstances := [], clusters := [] }
      efsFilesystems := some []
      fsxFilesystems := none
      redshiftClusters := none }

/-- A region whose only VPC has the literal id region_wide, colliding with
the reserved region-wide bucket key. -/
def c7RegionEnv : RegionEnv :=
  { emptyRegionEnv with
    vpcsPages := [Except.ok [{ vpcId := "region_wide" }]] }

/-- A region with two VPCs where the instance listing for the second VPC
raises a non-ClientError exception, aborting the region build after the
first VPC's entry has already been recorded. -/
def c6RegionEnv1 : RegionEnv :=
  { emptyRegionEnv with
    vpcsPages := [Except.ok [{ vpcId := "vpc-1" }, { vpcId := "vpc-2" }]]
    reservationsPages := fun v =>
      if v = "vpc-2" then [Except.error (AwsErr.otherError "conn")] else [] }

/-- A healthy region with one VPC, processed after the faulty one. -/
def c6RegionEnv2 : RegionEnv :=
  { emptyRegionEnv with
    vpcsPages := [Except.ok [{ vpcId := "vpc-3" }]] }

/-- The C6 scenario provider: region r1 faults mid-loop, region r2 is
healthy. -/
def envC6 : Env where
  describeRegionsResult := Except.ok []
  regionData := fun r => if r = "r1" then c6RegionEnv1 else c6RegionEnv2

/-- A provider whose region discovery raises a ClientError. -/
def envC5client : Env where
  describeRegionsResult := Except.error (AwsErr.clientError "AuthFailure")
  regionData := fun _ => emptyRegionEnv

/-- A provider whose region discovery raises a non-ClientError exception
(a network failure such as an endpoint connection error). -/
def envC5network : Env where
  describeRegionsResult := Except.error (AwsErr.otherError "EndpointConnectionError")
  regionData := fun _ => emptyRegionEnv

/-- A provider with one healthy but completely empty region. -/
def envEmptyRegion : Env where
  describeRegionsResult := Except.ok ["r1"]
  regionData := fun _ => emptyRegionEnv

/-- The inventory of a non-raising build (the empty inventory otherwise). -/
def okInventory (x : Except AwsErr Inventory) : Inventory :=
  match x with
  | .ok inv => inv
  | .error _ => []

/- ==================================================================
Lemma layer.
================================================================== -/

theorem isOkE_iff {α : Type} (x : Except AwsErr α) :
    isOkE x = true ↔ ∃ a, x = .ok a := by
  cases x <;> simp [isOkE]

theorem stepThen_eq_ok {α β : Type} {x : Except AwsErr α × List Call}
    {f : α → Except AwsErr β × List Call} {a : α} (h : x.1 = .ok a) :
    stepThen x f = ((f a).1, x.2 ++ (f a).2) := by
  obtain ⟨x1, x2⟩ := x
  cases x1 <;> simp_all [stepThen]

theorem stepThen_eq_error {α β : Type} {x : Except AwsErr α × List Call}
    {f : α → Except AwsErr β × List Call} {e : AwsErr} (h : x.1 = .error e) :
    stepThen x f = (.error e, x.2) := by
  obtain ⟨x1, x2⟩ := x
  cases x1 <;> simp_all [stepThen]

theorem stepThen_ok_inv {α β : Type} {x : Except AwsErr α × List Call}
    {f : α → Except AwsErr β × List Call} {b : β}
    (h : (stepThen x f).1 = .ok b) :
    ∃ a, x.1 = .ok a ∧ (f a).1 = .ok b := by
  obtain ⟨x1, x2⟩ := x
  cases x1 with
  | error e => simp_all [stepThen]
  | ok a => exact ⟨a, rfl, by simpa [stepThen] using h⟩

theorem stepThen_calls {α β : Type} {x : Except AwsErr α × List Call}
    {f : α → Except AwsErr β × List Call} {P : Call → Prop}
    (h1 : ∀ c ∈ x.2, P c) (h2 : ∀ a, ∀ c ∈ (f a).2, P c) :
    ∀ c ∈ (stepThen x f).2, P c := by
  obtain ⟨x1, x2⟩ := x
  cases x1 with
  | error e => simpa [stepThen] using h1
  | ok a =>
    intro c hc
    simp only [stepThen, List.mem_append] at hc
    rcases hc with hc | hc
    · exact h1 c hc
    · exact h2 a c hc

theorem getPaginatedResultsGo_ok {α : Type} (okPages : List (List α))
    (acc : List α) :
    getPaginatedResultsGo acc (okPages.map Except.ok) = .ok (acc ++ okPages.flatten) := by
  induction okPages generalizing acc with
  | nil => simp [getPaginatedResultsGo]
  | cons p rest ih => simp [getPaginatedResultsGo, ih]

theorem getPaginatedResultsGo_clientError {α : Type} (okPages : List (List α))
    (acc : List α) (code : String) (rest : List (PageResult α)) :
    getPaginatedResultsGo acc
      (okPages.map Except.ok ++ Except.error (AwsErr.clientError code) :: rest)
      = .ok [] := by
  induction okPages generalizing acc with
  | nil => simp [getPaginatedResultsGo]
  | cons p ps ih => simp [getPaginatedResultsGo, ih]

theorem assocLookup_insert_self {β : Type} (m : List (String × β))
    (k : String) (v : β) : assocLookup (assocInsert m k v) k = some v := by
  induction m with
  | nil => simp [assocInsert, assocLookup]
  | cons p rest ih =>
    obtain ⟨a, b⟩ := p
    by_cases h : a = k <;> simp [assocInsert, assocLookup, h, ih]

theorem assocLookup_insert_ne {β : Type} (m : List (String × β))
    (k k' : String) (v : β) (h : k' ≠ k) :
    assocLookup (assocInsert m k v) k' = assocLookup m k' := by
  induction m with
  | nil =>
    simp only [assocInsert, assocLookup]
    rw [if_neg (fun hh => h hh.symm)]
  | cons p rest ih =>
    obtain ⟨a, b⟩ := p
    by_cases hak : a = k
    · subst hak
      have hne : ¬ a = k' := fun hh => h hh.symm
      simp [assocInsert, assocLookup, hne]
    · simp [assocInsert, assocLookup, hak, ih]

theorem assocLookup_mem {β : Type} {m : List (String × β)} {k : String}
    {v : β} (h : assocLookup m k = some v) : (k, v) ∈ m := by
  induction m with
  | nil => simp [assocLookup] at h
  | cons p rest ih =>
    obtain ⟨a, b⟩ := p
    by_cases hak : a = k
    · subst hak
      simp [assocLookup] at h
      simp [h]
    · simp [assocLookup, hak] at h
      simp [ih h]

theorem mem_assocInsert {β : Type} {m : List (String × β)} {k : String}
    {v : β} {p : String × β} (h : p ∈ assocInsert m k v) :
    p = (k, v) ∨ p ∈ m := by
  induction m with
  | nil => simpa [assocInsert] using h
  | cons q rest ih =>
    obtain ⟨a, b⟩ := q
    by_cases hak : a = k
    · subst hak
      simp [assocInsert] at h
      rcases h with h | h
      · left; simp [h]
      · right; simp [h]
    · simp [assocInsert, hak] at h
      rcases h with h | h
      · right; simp [h]
      · rcases ih h with h' | h'
        · left; exact h'
        · right; simp [h']

theorem invLookup2_hierInsert_self (inv : Inventory) (region k : String)
    (v : RegionValue) :
    invLookup2 (hierInsert inv region k v) region k = some v := by
  simp [invLookup2, hierInsert, assocLookup_insert_self]

theorem invLookup2_hierInsert_ne (inv : Inventory) (region k k' : String)
    (v : RegionValue) (h : k' ≠ k) :
    invLookup2 (hierInsert inv region k v) region k' = invLookup2 inv region k' := by
  have hbase : assocLookup (hierInsert inv region k v) region
      = some (assocInsert ((assocLookup inv region).getD []) k v) := by
    simp [hierInsert, assocLookup_insert_self]
  simp only [invLookup2, hbase]
  show assocLookup (assocInsert ((assocLookup inv region).getD []) k v) k' = _
  rw [assocLookup_insert_ne _ _ _ _ h]
  cases hl : assocLookup inv region <;> simp [hl, assocLookup]

theorem assocLookup_hierInsert_other (inv : Inventory) (region r' k : String)
    (v : RegionValue) (h : r' ≠ region) :
    assocLookup (hierInsert inv region k v) r' = assocLookup inv r' := by
  simp [hierInsert, assocLookup_insert_ne _ _ _ _ h]

theorem gateFetch_pos {γ : Type} {p : Prop} [Decidable p] (hp : p)
    (fetch : Except AwsErr γ × List Call) :
    gateFetch p fetch = (.ok none, []) := by
  simp [gateFetch, hp]

theorem gateFetch_neg_ok {γ : Type} {p : Prop} [Decidable p] (hp : ¬ p)
    {fetch : Except AwsErr γ × List Call} {r : γ} (h : fetch.1 = .ok r) :
    gateFetch p fetch = (.ok (some r), fetch.2) := by
  simp [gateFetch, hp, stepThen_eq_ok h]

theorem gateFetch_log {γ : Type} (p : Prop) [Decidable p]
    (fetch : Except AwsErr γ × List Call) :
    (gateFetch p fetch).2 = if p then [] else fetch.2 := by
  by_cases hp : p
  · simp [gateFetch, hp]
  · cases hf : fetch.1 with
    | ok a => simp [gateFetch, hp, stepThen_eq_ok hf]
    | error e => simp [gateFetch, hp, stepThen_eq_error hf]

theorem gateFetch_ok_inv {γ : Type} {p : Prop} [Decidable p]
    {fetch : Except AwsErr γ × List Call} {o : Option γ}
    (hp : ¬ p) (h : (gateFetch p fetch).1 = .ok o) :
    ∃ r, fetch.1 = .ok r ∧ o = some r := by
  simp only [gateFetch, if_neg hp] at h
  obtain ⟨a, ha, hfa⟩ := stepThen_ok_inv h
  refine ⟨a, ha, ?_⟩
  simpa using hfa.symm

theorem getVpcs_log (renv : RegionEnv) (region : String) :
    (getVpcs renv region).2 = [Call.describeVpcs region] := rfl

theorem getSecurityGroups_log (renv : RegionEnv) (region vpcId : String) :
    (getSecurityGroups renv region vpcId).2
      = [Call.describeSecurityGroups region vpcId] := rfl

theorem getVolumeDetails_log (renv : RegionEnv) (region volumeId : String) :
    (getVolumeDetails renv region volumeId).2
      = [Call.describeVolumes region volumeId] := rfl

theorem getNetworkComponents_calls (renv : RegionEnv) (region vpcId : String) :
    ∀ c ∈ (getNetworkComponents renv region vpcId).2,
      c = Call.describeSubnets region vpcId ∨
      c = Call.describeRouteTables region vpcId ∨
      c = Call.describeInternetGateways region vpcId ∨
      c = Call.describeNatGateways region vpcId := by
  refine stepThen_calls ?_ ?_
  · intro c hc; simp [pageCall] at hc; exact Or.inl hc
  · intro subnets
    refine stepThen_calls ?_ ?_
    · intro c hc; simp [pageCall] at hc; exact Or.inr (Or.inl hc)
    · intro routeTables
      refine stepThen_calls ?_ ?_
      · intro c hc; simp [pageCall] at hc; exact Or.inr (Or.inr (Or.inl hc))
      · intro igws
        refine stepThen_calls ?_ ?_
        · intro c hc; simp [pageCall] at hc; exact Or.inr (Or.inr (Or.inr hc))
        · intro nats c hc; simp at hc

theorem buildEbsVolumes_calls (renv : RegionEnv) (region : String)
    (bdms : List BlockDeviceMapping) :
    ∀ c ∈ (buildEbsVolumes renv region bdms).2,
      ∃ vid, c = Call.describeVolumes region vid := by
  induction bdms with
  | nil => intro c hc; simp [buildEbsVolumes] at hc
  | cons bd rest ih =>
    cases hbe : bd.ebs with
    | none =>
      intro c hc
      simp only [buildEbsVolumes, hbe] at hc
      exact ih c hc
    | some e =>
      cases hvid : e.volumeId with
      | none =>
        intro c hc
        simp only [buildEbsVolumes, hbe, hvid] at hc
        exact ih c hc
      | some vid =>
        simp only [buildEbsVolumes, hbe, hvid]
        refine stepThen_calls ?_ ?_
        · intro c' hc'; simp [getVolumeDetails] at hc'; exact ⟨vid, hc'⟩
        · intro vd
          refine stepThen_calls ih ?_
          intro r c' hc'; simp at hc'

theorem buildInstanceEntries_calls (renv : RegionEnv) (region : String)
    (insts : List Ec2Instance) :
    ∀ c ∈ (buildInstanceEntries renv region insts).2,
      ∃ vid, c = Call.describeVolumes region vid := by
  induction insts with
  | nil => intro c hc; simp [buildInstanceEntries] at hc
  | cons inst rest ih =>
    intro c hc
    simp only [buildInstanceEntries] at hc
    refine stepThen_calls
      (buildEbsVolumes_calls renv region inst.blockDeviceMappings) ?_ c hc
    intro entries
    refine stepThen_calls ih ?_
    intro r c' hc'; simp at hc'

theorem buildReservationEntries_calls (renv : RegionEnv) (region : String)
    (rs : List Reservation) :
    ∀ c ∈ (buildReservationEntries renv region rs).2,
      ∃ vid, c = Call.describeVolumes region vid := by
  induction rs with
  | nil => intro c hc; simp [buildReservationEntries] at hc
  | cons r rest ih =>
    intro c hc
    simp only [buildReservationEntries] at hc
    refine stepThen_calls (buildInstanceEntries_calls renv region r.instances) ?_ c hc
    intro entries
    refine stepThen_calls ih ?_
    intro x c' hc'; simp at hc'

theorem getEc2WithEbs_calls (renv : RegionEnv) (region vpcId : String) :
    ∀ c ∈ (getEc2WithEbs renv region vpcId).2,
      c = Call.describeInstances region vpcId ∨
      ∃ vid, c = Call.describeVolumes region vid := by
  refine stepThen_calls ?_ ?_
  · intro c hc; simp [pageCall] at hc; exact Or.inl hc
  · intro reservations c hc
    exact Or.inr (buildReservationEntries_calls renv region reservations c hc)

theorem getDbSubnetGroups_log (renv : RegionEnv) (region : String) :
    (getDbSubnetGroups renv region).2 = [Call.describeDbSubnetGroups region] := by
  cases h : (pageCall (Call.describeDbSubnetGroups region) renv.dbSubnetGroupsPages).1 with
  | ok a =>
    rw [getDbSubnetGroups, stepThen_eq_ok h]
    rfl
  | error e =>
    rw [getDbSubnetGroups, stepThen_eq_error h]
    rfl

theorem getRdsResources_calls (renv : RegionEnv) (region vpcId : String)
    (dbsg : List (String × String)) :
    ∀ c ∈ (getRdsResources renv region vpcId dbsg).2,
      c = Call.describeDbInstances region ∨ c = Call.describeDbClusters region := by
  refine stepThen_calls ?_ ?_
  · intro c hc; simp [pageCall] at hc; exact Or.inl hc
  · intro dbs
    refine stepThen_calls ?_ ?_
    · intro c hc; simp [pageCall] at hc; exact Or.inr hc
    · intro cls c hc; simp at hc

theorem efsLoop_calls (renv : RegionEnv) (region vpcId : String)
    (fss : List EfsFileSystem) :
    ∀ c ∈ (efsLoop renv region vpcId fss).2,
      ∃ fid, c = Call.describeMountTargets region fid := by
  induction fss with
  | nil => intro c hc; simp [efsLoop] at hc
  | cons fs rest ih =>
    intro c hc
    cases hmt : renv.mountTargetsResult fs.fileSystemId with
    | error e =>
      cases e with
      | clientError code =>
        simp only [efsLoop, hmt] at hc
        simp at hc
        rcases hc with hc | hc
        · exact ⟨fs.fileSystemId, hc⟩
        · exact ih c hc
      | otherError m =>
        simp only [efsLoop, hmt] at hc
        simp at hc
        exact ⟨fs.fileSystemId, hc⟩
    | ok mts =>
      simp only [efsLoop, hmt] at hc
      simp at hc
      rcases hc with hc | hc
      · exact ⟨fs.fileSystemId, hc⟩
      · exact ih c hc

theorem getEfsResources_calls (renv : RegionEnv) (region vpcId : String) :
    ∀ c ∈ (getEfsResources renv region vpcId).2,
      c = Call.describeEfsFileSystems region ∨
      ∃ fid, c = Call.describeMountTargets region fid := by
  refine stepThen_calls ?_ ?_
  · intro c hc; simp [pageCall] at hc; exact Or.inl hc
  · intro fss c hc
    exact Or.inr (efsLoop_calls renv region vpcId fss c hc)

theorem getFsxResources_calls (renv : RegionEnv) (region vpcId : String) :
    ∀ c ∈ (getFsxResources renv region vpcId).2,
      c = Call.describeFsxFileSystems region := by
  refine stepThen_calls ?_ ?_
  · intro c hc; simp [pageCall] at hc; exact hc
  · intro fss c hc; simp at hc

theorem getRedshiftResources_calls (renv : RegionEnv) (region vpcId : String) :
    ∀ c ∈ (getRedshiftResources renv region vpcId).2,
      c = Call.describeRedshiftClusters region := by
  refine stepThen_calls ?_ ?_
  · intro c hc; simp [pageCall] at hc; exact hc
  · intro cls c hc; simp at hc

theorem dynamoDescribeLoop_calls (renv : RegionEnv) (region : String)
    (names : List String) :
    ∀ c ∈ (dynamoDescribeLoop renv region names).2,
      ∃ n, c = Call.describeTable region n := by
  induction names with
  | nil => intro c hc; simp [dynamoDescribeLoop] at hc
  | cons name rest ih =>
    intro c hc
    cases htd : renv.tableDetailsResult name with
    | error e =>
      cases e with
      | clientError code =>
        simp only [dynamoDescribeLoop, htd] at hc
        simp at hc
        rcases hc with hc | hc
        · exact ⟨name, hc⟩
        · exact ih c hc
      | otherError m =>
        simp only [dynamoDescribeLoop, htd] at hc
        simp at hc
        exact ⟨name, hc⟩
    | ok td =>
      simp only [dynamoDescribeLoop, htd] at hc
      simp at hc
      rcases hc with hc | hc
      · exact ⟨name, hc⟩
      · exact ih c hc

theorem getDynamodbTables_calls (renv : RegionEnv) (region : String) :
    ∀ c ∈ (getDynamodbTables renv region).2,
      c = Call.listTables region ∨ ∃ n, c = Call.describeTable region n := by
  refine stepThen_calls ?_ ?_
  · intro c hc; simp [pageCall] at hc; exact Or.inl hc
  · intro names c hc
    exact Or.inr (dynamoDescribeLoop_calls renv region names c hc)

theorem gateFetch_calls_sub {γ : Type} (p : Prop) [Decidable p]
    (fetch : Except AwsErr γ × List Call) :
    ∀ c ∈ (gateFetch p fetch).2, c ∈ fetch.2 := by
  intro c hc
  rw [gateFetch_log] at hc
  by_cases hp : p
  · simp [hp] at hc
  · simpa [hp] using hc

theorem gateFetch_calls_allowed {γ : Type} {cat0 : String} {excl : List String}
    {fetch : Except AwsErr γ × List Call}
    (hcat : ∀ c ∈ fetch.2, ∀ cat, callCategory c = some cat → cat = cat0) :
    ∀ c ∈ (gateFetch (cat0 ∈ excl) fetch).2,
      ∀ cat, callCategory c = some cat → cat ∉ excl := by
  intro c hc cat hc2
  rw [gateFetch_log] at hc
  by_cases hp : cat0 ∈ excl
  · simp [hp] at hc
  · simp [hp] at hc
    have h := hcat c hc cat hc2
    subst h
    exact hp

theorem getEc2WithEbs_category (renv : RegionEnv) (region vpcId : String) :
    ∀ c ∈ (getEc2WithEbs renv region vpcId).2,
      ∀ cat, callCategory c = some cat → cat = "ec2" := by
  intro c hc cat hcat
  rcases getEc2WithEbs_calls renv region vpcId c hc with h | ⟨vid, h⟩ <;> subst h <;>
    simpa [callCategory] using hcat.symm

theorem getRdsResources_category (renv : RegionEnv) (region vpcId : String)
    (dbsg : List (String × String)) :
    ∀ c ∈ (getRdsResources renv region vpcId dbsg).2,
      ∀ cat, callCategory c = some cat → cat = "rds" := by
  intro c hc cat hcat
  rcases getRdsResources_calls renv region vpcId dbsg c hc with h | h <;> subst h <;>
    simpa [callCategory] using hcat.symm

theorem getEfsResources_category (renv : RegionEnv) (region vpcId : String) :
    ∀ c ∈ (getEfsResources renv region vpcId).2,
      ∀ cat, callCategory c = some cat → cat = "efs" := by
  intro c hc cat hcat
  rcases getEfsResources_calls renv region vpcId c hc with h | ⟨fid, h⟩ <;> subst h <;>
    simpa [callCategory] using hcat.symm

theorem getFsxResources_category (renv : RegionEnv) (region vpcId : String) :
    ∀ c ∈ (getFsxResources renv region vpcId).2,
      ∀ cat, callCategory c = some cat → cat = "fsx" := by
  intro c hc cat hcat
  have h := getFsxResources_calls renv region vpcId c hc
  subst h
  simpa [callCategory] using hcat.symm

theorem getRedshiftResources_category (renv : RegionEnv) (region vpcId : String) :
    ∀ c ∈ (getRedshiftResources renv region vpcId).2,
      ∀ cat, callCategory c = some cat → cat = "redshift" := by
  intro c hc cat hcat
  have h := getRedshiftResources_calls renv region vpcId c hc
  subst h
  simpa [callCategory] using hcat.symm

theorem getDynamodbTables_category (renv : RegionEnv) (region : String) :
    ∀ c ∈ (getDynamodbTables renv region).2,
      ∀ cat, callCategory c = some cat → cat = "dynamodb" := by
  intro c hc cat hcat
  rcases getDynamodbTables_calls renv region c hc with h | ⟨n, h⟩ <;> subst h <;>
    simpa [callCategory] using hcat.symm

theorem buildVpcEntry_calls_allowed (renv : RegionEnv) (region : String)
    (excl : List String) (dbsg : List (String × String)) (vpc : Vpc) :
    ∀ c ∈ (buildVpcEntry renv region excl dbsg vpc).2,
      ∀ cat, callCategory c = some cat → cat ∉ excl := by
  refine stepThen_calls
    (gateFetch_calls_allowed (getEc2WithEbs_category renv region vpc.vpcId)) ?_
  intro a1
  refine stepThen_calls
    (gateFetch_calls_allowed (getRdsResources_category renv region vpc.vpcId dbsg)) ?_
  intro a2
  refine stepThen_calls
    (gateFetch_calls_allowed (getEfsResources_category renv region vpc.vpcId)) ?_
  intro a3
  refine stepThen_calls
    (gateFetch_calls_allowed (getFsxResources_category renv region vpc.vpcId)) ?_
  intro a4
  refine stepThen_calls
    (gateFetch_calls_allowed (getRedshiftResources_category renv region vpc.vpcId)) ?_
  intro a5
  refine stepThen_calls ?_ ?_
  · intro c hc cat hcat
    rcases getNetworkComponents_calls renv region vpc.vpcId c hc with h | h | h | h <;>
      subst h <;> simp [callCategory] at hcat
  · intro a6
    refine stepThen_calls ?_ ?_
    · intro c hc cat hcat
      simp only [getSecurityGroups_log, List.mem_singleton] at hc
      subst hc
      simp [callCategory] at hcat
    · intro a7 c hc
      simp at hc

theorem buildVpcEntry_calls_not_sg (renv : RegionEnv) (region : String)
    (excl : List String) (dbsg : List (String × String)) (vpc : Vpc) :
    ∀ c ∈ (buildVpcEntry renv region excl dbsg vpc).2,
      ∀ r, c ≠ Call.describeDbSubnetGroups r := by
  refine stepThen_calls ?_ ?_
  · intro c hc r
    have hc' := gateFetch_calls_sub _ _ c hc
    rcases getEc2WithEbs_calls renv region vpc.vpcId c hc' with h | ⟨vid, h⟩ <;>
      subst h <;> simp
  · intro a1
    refine stepThen_calls ?_ ?_
    · intro c hc r
      have hc' := gateFetch_calls_sub _ _ c hc
      rcases getRdsResources_calls renv region vpc.vpcId dbsg c hc' with h | h <;>
        subst h <;> simp
    · intro a2
      refine stepThen_calls ?_ ?_
      · intro c hc r
        have hc' := gateFetch_calls_sub _ _ c hc
        rcases getEfsResources_calls renv region vpc.vpcId c hc' with h | ⟨fid, h⟩ <;>
          subst h <;> simp
      · intro a3
        refine stepThen_calls ?_ ?_
        · intro c hc r
          have hc' := gateFetch_calls_sub _ _ c hc
          have h := getFsxResources_calls renv region vpc.vpcId c hc'
          subst h; simp
        · intro a4
          refine stepThen_calls ?_ ?_
          · intro c hc r
            have hc' := gateFetch_calls_sub _ _ c hc
            have h := getRedshiftResources_calls renv region vpc.vpcId c hc'
            subst h; simp
          · intro a5
            refine stepThen_calls ?_ ?_
            · intro c hc r
              rcases getNetworkComponents_calls renv region vpc.vpcId c hc with
                h | h | h | h <;> subst h <;> simp
            · intro a6
              refine stepThen_calls ?_ ?_
              · intro c hc r
                simp only [getSecurityGroups_log, List.mem_singleton] at hc
                subst hc; simp
              · intro a7 c hc
                simp at hc

theorem buildVpcEntry_ok_inv {renv : RegionEnv} {region : String}
    {excl : List String} {dbsg : List (String × String)} {vpc : Vpc}
    {e : VpcEntry}
    (h : (buildVpcEntry renv region excl dbsg vpc).1 = .ok e) :
    ∃ ec2o rdso efso fsxo rso nc sgs,
      (gateFetch ("ec2" ∈ excl) (getEc2WithEbs renv region vpc.vpcId)).1 = .ok ec2o ∧
      (gateFetch ("rds" ∈ excl) (getRdsResources renv region vpc.vpcId dbsg)).1 = .ok rdso ∧
      (gateFetch ("efs" ∈ excl) (getEfsResources renv region vpc.vpcId)).1 = .ok efso ∧
      (gateFetch ("fsx" ∈ excl) (getFsxResources renv region vpc.vpcId)).1 = .ok fsxo ∧
      (gateFetch ("redshift" ∈ excl) (getRedshiftResources renv region vpc.vpcId)).1 = .ok rso ∧
      (getNetworkComponents renv region vpc.vpcId).1 = .ok nc ∧
      (getSecurityGroups renv region vpc.vpcId).1 = .ok sgs ∧
      e = { vpcInfo := vpc, networkComponents := nc, securityGroups := sgs,
            resources := { ec2Instances := ec2o, rdsInstances := rdso,
                           efsFilesystems := efso, fsxFilesystems := fsxo,
                           redshiftClusters := rso } } := by
  simp only [buildVpcEntry] at h
  obtain ⟨a1, h1, h⟩ := stepThen_ok_inv h
  obtain ⟨a2, h2, h⟩ := stepThen_ok_inv h
  obtain ⟨a3, h3, h⟩ := stepThen_ok_inv h
  obtain ⟨a4, h4, h⟩ := stepThen_ok_inv h
  obtain ⟨a5, h5, h⟩ := stepThen_ok_inv h
  obtain ⟨a6, h6, h⟩ := stepThen_ok_inv h
  obtain ⟨a7, h7, h⟩ := stepThen_ok_inv h
  refine ⟨a1, a2, a3, a4, a5, a6, a7, h1, h2, h3, h4, h5, h6, h7, ?_⟩
  simpa using h.symm

theorem buildVpcLoop_calls {renv : RegionEnv} {region : String}
    {excl : List String} {dbsg : List (String × String)} {P : Call → Prop} :
    ∀ (vpcs : List Vpc) (inv : Inventory),
    (∀ v ∈ vpcs, ∀ c ∈ (buildVpcEntry renv region excl dbsg v).2, P c) →
    ∀ c ∈ (buildVpcLoop renv region excl dbsg inv vpcs).2.2, P c := by
  intro vpcs
  induction vpcs with
  | nil => intro inv h c hc; simp [buildVpcLoop] at hc
  | cons v rest ih =>
    intro inv h c hc
    simp only [buildVpcLoop] at hc
    rcases hbe : buildVpcEntry renv region excl dbsg v with ⟨r1, cs⟩
    rw [hbe] at hc
    cases r1 with
    | error e =>
      simp at hc
      exact h v (by simp) c (by rw [hbe]; exact hc)
    | ok entry =>
      simp at hc
      rcases hc with hc | hc
      · exact h v (by simp) c (by rw [hbe]; exact hc)
      · exact ih _ (fun w hw => h w (by simp [hw])) c hc

theorem buildVpcLoop_noerr {renv : RegionEnv} {region : String}
    {excl : List String} {dbsg : List (String × String)} :
    ∀ (vpcs : List Vpc) (inv : Inventory),
    (∀ v ∈ vpcs, isOkE (buildVpcEntry renv region excl dbsg v).1 = true) →
    (buildVpcLoop renv region excl dbsg inv vpcs).2.1 = none := by
  intro vpcs
  induction vpcs with
  | nil => intro inv h; simp [buildVpcLoop]
  | cons v rest ih =>
    intro inv h
    have hv := h v (by simp)
    rw [isOkE_iff] at hv
    obtain ⟨e, he⟩ := hv
    rcases hbe : buildVpcEntry renv region excl dbsg v with ⟨r1, cs⟩
    rw [hbe] at he
    simp only [buildVpcLoop, hbe]
    cases r1 with
    | error err => simp at he
    | ok entry =>
      simpa using ih _ (fun w hw => h w (by simp [hw]))

theorem buildVpcLoop_lookup_preserve {renv : RegionEnv} {region : String}
    {excl : List String} {dbsg : List (String × String)} :
    ∀ (vpcs : List Vpc) (inv : Inventory) (k : String),
    (∀ v ∈ vpcs, v.vpcId ≠ k) →
    invLookup2 (buildVpcLoop renv region excl dbsg inv vpcs).1 region k
      = invLookup2 inv region k := by
  intro vpcs
  induction vpcs with
  | nil => intro inv k h; simp [buildVpcLoop]
  | cons v rest ih =>
    intro inv k h
    rcases hbe : buildVpcEntry renv region excl dbsg v with ⟨r1, cs⟩
    simp only [buildVpcLoop, hbe]
    cases r1 with
    | error e => simp
    | ok entry =>
      simp only
      rw [ih _ k (fun w hw => h w (by simp [hw]))]
      exact invLookup2_hierInsert_ne inv region v.vpcId k _
        (fun hh => h v (by simp) hh.symm)

theorem buildVpcLoop_other_region {renv : RegionEnv} {region : String}
    {excl : List String} {dbsg : List (String × String)} :
    ∀ (vpcs : List Vpc) (inv : Inventory) (r' : String), r' ≠ region →
    assocLookup (buildVpcLoop renv region excl dbsg inv vpcs).1 r'
      = assocLookup inv r' := by
  intro vpcs
  induction vpcs with
  | nil => intro inv r' h; simp [buildVpcLoop]
  | cons v rest ih =>
    intro inv r' h
    rcases hbe : buildVpcEntry renv region excl dbsg v with ⟨r1, cs⟩
    simp only [buildVpcLoop, hbe]
    cases r1 with
    | error e => simp
    | ok entry =>
      simp only
      rw [ih _ r' h]
      exact assocLookup_hierInsert_other inv region r' v.vpcId _ h

theorem buildVpcLoop_lookup {renv : RegionEnv} {region : String}
    {excl : List String} {dbsg : List (String × String)} :
    ∀ (vpcs : List Vpc) (inv : Inventory),
    (vpcs.map Vpc.vpcId).Nodup →
    (∀ v ∈ vpcs, isOkE (buildVpcEntry renv region excl dbsg v).1 = true) →
    ∀ v ∈ vpcs, ∀ e, (buildVpcEntry renv region excl dbsg v).1 = .ok e →
    invLookup2 (buildVpcLoop renv region excl dbsg inv vpcs).1 region v.vpcId
      = some (RegionValue.vpcData e) := by
  intro vpcs
  induction vpcs with
  | nil => intro inv hnd hok v hv; simp at hv
  | cons w rest ih =>
    intro inv hnd hok v hv e he
    rw [List.mem_cons] at hv
    rcases hv with hv | hv
    · rw [hv] at he ⊢
      rcases hbe : buildVpcEntry renv region excl dbsg w with ⟨r1, cs⟩
      rw [hbe] at he
      simp only at he
      subst he
      simp only [buildVpcLoop, hbe]
      have hrest : ∀ w' ∈ rest, w'.vpcId ≠ w.vpcId := by
        intro w' hw' heq
        simp only [List.map_cons, List.nodup_cons] at hnd
        exact hnd.1 (by
          rw [← heq]
          exact List.mem_map_of_mem Vpc.vpcId hw')
      rw [buildVpcLoop_lookup_preserve rest _ w.vpcId hrest]
      exact invLookup2_hierInsert_self inv region w.vpcId _
    · have hw := hok w (by simp)
      rw [isOkE_iff] at hw
      obtain ⟨ew, hew⟩ := hw
      rcases hbe : buildVpcEntry renv region excl dbsg w with ⟨r1, cs⟩
      rw [hbe] at hew
      simp only at hew
      subst hew
      simp only [buildVpcLoop, hbe]
      have hnd' : (rest.map Vpc.vpcId).Nodup := by
        simp only [List.map_cons, List.nodup_cons] at hnd
        exact hnd.2
      exact ih _ hnd' (fun w' hw' => hok w' (by simp [hw'])) v hv e he

theorem invAll_hierInsert {P : String × RegionValue → Prop} {inv : Inventory}
    {region k : String} {v : RegionValue}
    (hinv : invAll P inv) (hv : P (k, v)) :
    invAll P (hierInsert inv region k v) := by
  intro rm hrm p hp
  rcases mem_assocInsert hrm with h | h
  · subst h
    simp only at hp
    rcases mem_assocInsert hp with h' | h'
    · subst h'; exact hv
    · cases hl : assocLookup inv region with
      | none => rw [hl] at h'; simp at h'
      | some m =>
        rw [hl] at h'
        exact hinv (region, m) (assocLookup_mem hl) p h'
  · exact hinv rm h p hp

theorem buildVpcLoop_invAll {renv : RegionEnv} {region : String}
    {excl : List String} {dbsg : List (String × String)}
    {P : String × RegionValue → Prop} :
    ∀ (vpcs : List Vpc) (inv : Inventory),
    invAll P inv →
    (∀ v ∈ vpcs, ∀ e, (buildVpcEntry renv region excl dbsg v).1 = .ok e →
       P (v.vpcId, RegionValue.vpcData e)) →
    invAll P (buildVpcLoop renv region excl dbsg inv vpcs).1 := by
  intro vpcs
  induction vpcs with
  | nil => intro inv hinv h; simpa [buildVpcLoop] using hinv
  | cons v rest ih =>
    intro inv hinv h
    rcases hbe : buildVpcEntry renv region excl dbsg v with ⟨r1, cs⟩
    simp only [buildVpcLoop, hbe]
    cases r1 with
    | error e => simpa using hinv
    | ok entry =>
      simp only
      refine ih _ ?_ (fun w hw => h w (by simp [hw]))
      refine invAll_hierInsert hinv ?_
      exact h v (by simp) entry (by rw [hbe])

theorem regionDbSubnetDict_log (renv : RegionEnv) (region : String)
    (excl : List String) :
    (regionDbSubnetDict renv region excl).2
      = if "rds" ∈ excl then [] else [Call.describeDbSubnetGroups region] := by
  by_cases h : "rds" ∈ excl <;>
    simp [regionDbSubnetDict, h, getDbSubnetGroups_log]

theorem buildRegionHierarchy_lookup_vpc {renv : RegionEnv}
    {excl : List String} {region : String} {inv : Inventory}
    {vpcs : List Vpc} {dbsg : List (String × String)}
    (hv : getPaginatedResults renv.vpcsPages = .ok vpcs)
    (hsg : (regionDbSubnetDict renv region excl).1 = .ok dbsg)
    (hnd : (vpcs.map Vpc.vpcId).Nodup)
    (hok : ∀ v ∈ vpcs, isOkE (buildVpcEntry renv region excl dbsg v).1 = true)
    (hrw : ∀ v ∈ vpcs, v.vpcId ≠ "region_wide") :
    ∀ v ∈ vpcs, ∀ e, (buildVpcEntry renv region excl dbsg v).1 = .ok e →
    invLookup2 (buildRegionHierarchy renv excl region inv).1 region v.vpcId
      = some (RegionValue.vpcData e) := by
  intro v hv' e he
  rcases hd : regionDbSubnetDict renv region excl with ⟨sgr, cs2⟩
  rw [hd] at hsg
  simp only at hsg
  subst hsg
  have hloop := @buildVpcLoop_lookup renv region excl dbsg vpcs inv hnd hok v hv' e he
  have hnone := @buildVpcLoop_noerr renv region excl dbsg vpcs inv hok
  rcases hl : buildVpcLoop renv region excl dbsg inv vpcs with ⟨inv2, errv, cs3⟩
  rw [hl] at hloop hnone
  simp only at hloop hnone
  subst hnone
  simp only [buildRegionHierarchy, getVpcs, pageCall, hv, hd, hl]
  by_cases hdyn : "dynamodb" ∈ excl
  · simpa [hdyn] using hloop
  · simp only [if_neg hdyn]
    rcases ht : getDynamodbTables renv region with ⟨tr, cs4⟩
    cases tr with
    | error te => simpa using hloop
    | ok tables =>
      simp only
      rw [invLookup2_hierInsert_ne inv2 region "region_wide" v.vpcId _ (hrw v hv')]
      exact hloop

theorem buildRegionHierarchy_log_sg {renv : RegionEnv} {excl : List String}
    {region : String} {inv : Inventory} {vpcs : List Vpc}
    (hv : getPaginatedResults renv.vpcsPages = .ok vpcs)
    (hrds : "rds" ∉ excl) :
    ∃ suffix, (buildRegionHierarchy renv excl region inv).2
        = Call.describeVpcs region :: Call.describeDbSubnetGroups region :: suffix ∧
      ∀ c ∈ suffix, ∀ r, c ≠ Call.describeDbSubnetGroups r := by
  have hd2 : (regionDbSubnetDict renv region excl).2
      = [Call.describeDbSubnetGroups region] := by
    simp [regionDbSubnetDict_log, hrds]
  rcases hd : regionDbSubnetDict renv region excl with ⟨sgr, cs2⟩
  rw [hd] at hd2
  simp only at hd2
  subst hd2
  simp only [buildRegionHierarchy, getVpcs, pageCall, hv, hd]
  cases sgr with
  | error e2 =>
    exact ⟨[], by simp, by simp⟩
  | ok dbsg =>
    rcases hl : buildVpcLoop renv region excl dbsg inv vpcs with ⟨inv2, errv, cs3⟩
    have hcs3 : ∀ c ∈ cs3, ∀ r, c ≠ Call.describeDbSubnetGroups r := by
      intro c hc
      refine buildVpcLoop_calls vpcs inv
        (fun w hw => buildVpcEntry_calls_not_sg renv region excl dbsg w) c ?_
      rw [hl]
      exact hc
    cases errv with
    | some e3 =>
      refine ⟨cs3, by simp [hl], hcs3⟩
    | none =>
      by_cases hdyn : "dynamodb" ∈ excl
      · simp only [if_pos hdyn]
        exact ⟨cs3, by simp [hl, hdyn], hcs3⟩
      · simp only [if_neg hdyn]
        rcases ht : getDynamodbTables renv region with ⟨tr, cs4⟩
        have hcs4 : ∀ c ∈ cs4, ∀ r, c ≠ Call.describeDbSubnetGroups r := by
          intro c hc r
          have hc' : c ∈ (getDynamodbTables renv region).2 := by
            rw [ht]; exact hc
          rcases getDynamodbTables_calls renv region c hc' with h | ⟨n, h⟩ <;>
            subst h <;> simp
        cases tr with
        | error te =>
          refine ⟨cs3 ++ cs4, by simp [hl, hdyn, ht], ?_⟩
          intro c hc r
          rcases List.mem_append.mp hc with h | h
          · exact hcs3 c h r
          · exact hcs4 c h r
        | ok tables =>
          refine ⟨cs3 ++ cs4, by simp [hl, hdyn, ht], ?_⟩
          intro c hc r
          rcases List.mem_append.mp hc with h | h
          · exact hcs3 c h r
          · exact hcs4 c h r

theorem buildRegionHierarchy_other_region (renv : RegionEnv)
    (excl : List String) (region : String) (inv : Inventory) (r' : String)
    (h : r' ≠ region) :
    assocLookup (buildRegionHierarchy renv excl region inv).1 r'
      = assocLookup inv r' := by
  rcases hgv : getVpcs renv region with ⟨vr, cs⟩
  cases vr with
  | error e => simp [buildRegionHierarchy, hgv]
  | ok vpcs =>
    rcases hd : regionDbSubnetDict renv region excl with ⟨sgr, cs2⟩
    cases sgr with
    | error e2 => simp [buildRegionHierarchy, hgv, hd]
    | ok dbsg =>
      rcases hl : buildVpcLoop renv region excl dbsg inv vpcs with ⟨inv2, errv, cs3⟩
      have hlp : assocLookup inv2 r' = assocLookup inv r' := by
        have := @buildVpcLoop_other_region renv region excl dbsg vpcs inv r' h
        rw [hl] at this
        exact this
      cases errv with
      | some e3 => simp [buildRegionHierarchy, hgv, hd, hl, hlp]
      | none =>
        by_cases hdyn : "dynamodb" ∈ excl
        · simp [buildRegionHierarchy, hgv, hd, hl, hdyn, hlp]
        · rcases ht : getDynamodbTables renv region with ⟨tr, cs4⟩
          cases tr with
          | error te => simp [buildRegionHierarchy, hgv, hd, hl, hdyn, ht, hlp]
          | ok tables =>
            simp only [buildRegionHierarchy, hgv, hd, hl, if_neg hdyn, ht]
            rw [assocLookup_hierInsert_other inv2 region r' _ _ h]
            exact hlp

theorem buildRegionHierarchy_invAll {P : String × RegionValue → Prop}
    (renv : RegionEnv) (excl : List String) (region : String) (inv : Inventory)
    (hinv : invAll P inv)
    (hvpc : ∀ vpcs, getPaginatedResults renv.vpcsPages = .ok vpcs →
        ∀ dbsg, ∀ v ∈ vpcs, ∀ e,
        (buildVpcEntry renv region excl dbsg v).1 = .ok e →
        P (v.vpcId, RegionValue.vpcData e))
    (hdyn : ∀ ts, "dynamodb" ∉ excl →
        P ("region_wide", RegionValue.regionWide ts)) :
    invAll P (buildRegionHierarchy renv excl region inv).1 := by
  rcases hgv : getVpcs renv region with ⟨vr, cs⟩
  have hgv1 : getPaginatedResults renv.vpcsPages = vr := by
    have := congrArg Prod.fst hgv
    exact this
  cases vr with
  | error e => simpa [buildRegionHierarchy, hgv] using hinv
  | ok vpcs =>
    rcases hd : regionDbSubnetDict renv region excl with ⟨sgr, cs2⟩
    cases sgr with
    | error e2 => simpa [buildRegionHierarchy, hgv, hd] using hinv
    | ok dbsg =>
      rcases hl : buildVpcLoop renv region excl dbsg inv vpcs with ⟨inv2, errv, cs3⟩
      have hinv2 : invAll P inv2 := by
        have := @buildVpcLoop_invAll renv region excl dbsg P vpcs inv hinv
          (fun v hv e he => hvpc vpcs hgv1 dbsg v hv e he)
        rw [hl] at this
        exact this
      cases errv with
      | some e3 => simpa [buildRegionHierarchy, hgv, hd, hl] using hinv2
      | none =>
        by_cases hdy : "dynamodb" ∈ excl
        · simpa [buildRegionHierarchy, hgv, hd, hl, hdy] using hinv2
        · rcases ht : getDynamodbTables renv region with ⟨tr, cs4⟩
          cases tr with
          | error te =>
            simpa [buildRegionHierarchy, hgv, hd, hl, hdy, ht] using hinv2
          | ok tables =>
            simp only [buildRegionHierarchy, hgv, hd, hl, if_neg hdy, ht]
            exact invAll_hierInsert hinv2 (hdyn tables hdy)

theorem buildRegionHierarchy_calls_allowed (renv : RegionEnv)
    (excl : List String) (region : String) (inv : Inventory) :
    ∀ c ∈ (buildRegionHierarchy renv excl region inv).2,
      ∀ cat, callCategory c = some cat → cat ∉ excl := by
  have hvpcsLog : ∀ c ∈ [Call.describeVpcs region],
      ∀ cat, callCategory c = some cat → cat ∉ excl := by
    intro c hc cat hcat
    simp only [List.mem_singleton] at hc
    subst hc
    simp [callCategory] at hcat
  have hsgLog : ∀ c ∈ (regionDbSubnetDict renv region excl).2,
      ∀ cat, callCategory c = some cat → cat ∉ excl := by
    intro c hc cat hcat
    rw [regionDbSubnetDict_log] at hc
    by_cases hr : "rds" ∈ excl
    · simp [hr] at hc
    · simp [hr] at hc
      subst hc
      simp only [callCategory, Option.some.injEq] at hcat
      subst hcat
      exact hr
  have hdynLog : "dynamodb" ∉ excl → ∀ c ∈ (getDynamodbTables renv region).2,
      ∀ cat, callCategory c = some cat → cat ∉ excl := by
    intro hdy c hc cat hcat
    have := getDynamodbTables_category renv region c hc cat hcat
    subst this
    exact hdy
  rcases hgv : getVpcs renv region with ⟨vr, cs⟩
  have hcs : cs = [Call.describeVpcs region] := by
    have := getVpcs_log renv region
    rw [hgv] at this
    exact this
  subst hcs
  cases vr with
  | error e =>
    simp only [buildRegionHierarchy, hgv]
    exact hvpcsLog
  | ok vpcs =>
    rcases hd : regionDbSubnetDict renv region excl with ⟨sgr, cs2⟩
    have hcs2 : ∀ c ∈ cs2, ∀ cat, callCategory c = some cat → cat ∉ excl := by
      intro c hc
      refine hsgLog c ?_
      rw [hd]
      exact hc
    cases sgr with
    | error e2 =>
      simp only [buildRegionHierarchy, hgv, hd]
      intro c hc
      rcases List.mem_append.mp hc with h | h
      · exact hvpcsLog c h
      · exact hcs2 c h
    | ok dbsg =>
      rcases hl : buildVpcLoop renv region excl dbsg inv vpcs with ⟨inv2, errv, cs3⟩
      have hcs3 : ∀ c ∈ cs3, ∀ cat, callCategory c = some cat → cat ∉ excl := by
        intro c hc
        refine buildVpcLoop_calls vpcs inv
          (fun w hw => buildVpcEntry_calls_allowed renv region excl dbsg w) c ?_
        rw [hl]
        exact hc
      cases errv with
      | some e3 =>
        simp only [buildRegionHierarchy, hgv, hd, hl]
        intro c hc
        rcases List.mem_append.mp hc with h | h
        · rcases List.mem_append.mp h with h' | h'
          · exact hvpcsLog c h'
          · exact hcs2 c h'
        · exact hcs3 c h
      | none =>
        by_cases hdy : "dynamodb" ∈ excl
        · simp only [buildRegionHierarchy, hgv, hd, hl, if_pos hdy]
          intro c hc
          rcases List.mem_append.mp hc with h | h
          · rcases List.mem_append.mp h with h' | h'
            · exact hvpcsLog c h'
            · exact hcs2 c h'
          · exact hcs3 c h
        · rcases ht : getDynamodbTables renv region with ⟨tr, cs4⟩
          have hcs4 : ∀ c ∈ cs4, ∀ cat, callCategory c = some cat → cat ∉ excl := by
            intro c hc
            refine hdynLog hdy c ?_
            rw [ht]
            exact hc
          have hres : ∀ c ∈ ((Call.describeVpcs region :: cs2) ++ cs3 ++ cs4),
              ∀ cat, callCategory c = some cat → cat ∉ excl := by
            intro c hc
            rcases List.mem_append.mp hc with h | h
            · rcases List.mem_append.mp h with h' | h'
              · rcases List.mem_cons.mp h' with h'' | h''
                · subst h''
                  intro cat hcat
                  simp [callCategory] at hcat
                · exact hcs2 c h''
              · exact hcs3 c h'
            · exact hcs4 c h
          cases tr with
          | error te =>
            simp only [buildRegionHierarchy, hgv, hd, hl, if_neg hdy, ht]
            simpa using hres
          | ok tables =>
            simp only [buildRegionHierarchy, hgv, hd, hl, if_neg hdy, ht]
            simpa using hres

theorem invAll_nil {P : String × RegionValue → Prop} : invAll P [] := by
  intro rm hrm
  simp at hrm

theorem processRegions_invAll {env : Env} {excl : List String}
    {P : String × RegionValue → Prop} :
    ∀ (regions : List String) (inv : Inventory),
    invAll P inv →
    (∀ region vpcs,
      getPaginatedResults (env.regionData region).vpcsPages = .ok vpcs →
      ∀ dbsg, ∀ v ∈ vpcs, ∀ e,
      (buildVpcEntry (env.regionData region) region excl dbsg v).1 = .ok e →
      P (v.vpcId, RegionValue.vpcData e)) →
    (∀ ts, "dynamodb" ∉ excl → P ("region_wide", RegionValue.regionWide ts)) →
    invAll P (processRegions env excl inv regions).1 := by
  intro regions
  induction regions with
  | nil => intro inv h _ _; simpa [processRegions] using h
  | cons r rest ih =>
    intro inv h hvpc hdyn
    simp only [processRegions]
    exact ih _
      (buildRegionHierarchy_invAll _ _ _ _ h (hvpc r) hdyn) hvpc hdyn

theorem processRegions_calls_allowed {env : Env} {excl : List String} :
    ∀ (regions : List String) (inv : Inventory),
    ∀ c ∈ (processRegions env excl inv regions).2,
      ∀ cat, callCategory c = some cat → cat ∉ excl := by
  intro regions
  induction regions with
  | nil => intro inv c hc; simp [processRegions] at hc
  | cons r rest ih =>
    intro inv c hc
    simp only [processRegions] at hc
    rcases List.mem_append.mp hc with h | h
    · exact buildRegionHierarchy_calls_allowed _ _ _ _ c h
    · exact ih _ c h

theorem buildHierarchy_empty_regions (env : Env) (excl : List String) :
    buildHierarchy env excl (some []) = buildHierarchy env excl none := rfl

theorem buildHierarchy_calls_allowed (env : Env) (excl : List String)
    (regions : Option (List String)) :
    ∀ c ∈ (buildHierarchy env excl regions).2,
      ∀ cat, callCategory c = some cat → cat ∉ excl := by
  have hdisc : ∀ cat, callCategory Call.describeRegions = some cat → cat ∉ excl := by
    intro cat hcat
    simp [callCategory] at hcat
  have hnone : ∀ c ∈ (buildHierarchy env excl none).2,
      ∀ cat, callCategory c = some cat → cat ∉ excl := by
    cases hdr : env.describeRegionsResult with
    | error e =>
      cases e with
      | clientError code =>
        intro c hc
        simp only [buildHierarchy, hdr, List.mem_singleton] at hc
        subst hc
        exact hdisc
      | otherError m =>
        intro c hc
        simp only [buildHierarchy, hdr, List.mem_singleton] at hc
        subst hc
        exact hdisc
    | ok discovered =>
      intro c hc
      simp only [buildHierarchy, hdr, List.mem_cons] at hc
      rcases hc with h | h
      · subst h; exact hdisc
      · exact processRegions_calls_allowed _ _ c h
  rcases regions with _ | rs
  · exact hnone
  · rcases rs with _ | ⟨r, rs⟩
    · rw [buildHierarchy_empty_regions]
      exact hnone
    · intro c hc
      simp only [buildHierarchy] at hc
      exact processRegions_calls_allowed _ _ c hc

theorem buildHierarchy_invAll {env : Env} {excl : List String}
    {P : String × RegionValue → Prop} {regions : Option (List String)}
    {inv : Inventory}
    (h1 : (buildHierarchy env excl regions).1 = .ok inv)
    (hvpc : ∀ region vpcs,
      getPaginatedResults (env.regionData region).vpcsPages = .ok vpcs →
      ∀ dbsg, ∀ v ∈ vpcs, ∀ e,
      (buildVpcEntry (env.regionData region) region excl dbsg v).1 = .ok e →
      P (v.vpcId, RegionValue.vpcData e))
    (hdyn : ∀ ts, "dynamodb" ∉ excl →
      P ("region_wide", RegionValue.regionWide ts)) :
    invAll P inv := by
  have hnone : (buildHierarchy env excl none).1 = .ok inv → invAll P inv := by
    intro h1'
    cases hdr : env.describeRegionsResult with
    | error e =>
      cases e with
      | clientError code =>
        simp only [buildHierarchy, hdr] at h1'
        have : inv = [] := by simpa using h1'.symm
        subst this
        exact invAll_nil
      | otherError m =>
        simp only [buildHierarchy, hdr] at h1'
        simp at h1'
    | ok discovered =>
      simp only [buildHierarchy, hdr] at h1'
      have : inv = (processRegions env excl [] discovered).1 := by
        simpa using h1'.symm
      subst this
      exact processRegions_invAll discovered [] invAll_nil hvpc hdyn
  rcases regions with _ | rs
  · exact hnone h1
  · rcases rs with _ | ⟨r, rs⟩
    · rw [buildHierarchy_empty_regions] at h1
      exact hnone h1
    · simp only [buildHierarchy] at h1
      have : inv = (processRegions env excl [] (r :: rs)).1 := by
        simpa using h1.symm
      subst this
      exact processRegions_invAll (r :: rs) [] invAll_nil hvpc hdyn

theorem getRdsResources_ok {renv : RegionEnv} {region vpcId : String}
    {dbsg : List (String × String)} {dbs : List DbInstance}
    {cls : List DbCluster}
    (hdb : getPaginatedResults renv.dbInstancesPages = .ok dbs)
    (hcl : getPaginatedResults renv.dbClustersPages = .ok cls) :
    (getRdsResources renv region vpcId dbsg).1 = .ok
      { dbInstances := (dbs.filter (fun db =>
          pyDictGet dbsg db.dbSubnetGroupName == some vpcId)).map mkDbInstanceEntry,
        clusters := (cls.filter (fun c =>
          pyDictGet dbsg c.dbSubnetGroup == some vpcId)).map mkDbClusterEntry } := by
  have hdb' : (pageCall (Call.describeDbInstances region)
      renv.dbInstancesPages).1 = .ok dbs := hdb
  have hcl' : (pageCall (Call.describeDbClusters region)
      renv.dbClustersPages).1 = .ok cls := hcl
  rw [getRdsResources, stepThen_eq_ok hdb']
  show (stepThen (pageCall (Call.describeDbClusters region) renv.dbClustersPages) _).1 = _
  rw [stepThen_eq_ok hcl']

/- ==================================================================
Claim theorems.
================================================================== -/

/-- C1: when rds is not excluded and the region's listings succeed, the DB
subnet-group mapping is fetched exactly once per region, directly after VPC
discovery and before any per-VPC call (the subnet-group listing call occurs
nowhere later in the region's call log); and each VPC's rds_instances
bundle contains exactly the DB instances and Aurora clusters whose
subnet-group name looks up in that pre-fetched mapping to exactly this
VPC's id; an instance whose subnet-group name is absent from the mapping
satisfies no VPC's membership test, so it is attached to no VPC. -/
theorem rds_prefetch_once_and_membership (renv : RegionEnv)
    (excl : List String) (region : String) (vpcs : List Vpc)
    (dbsg : List (String × String)) (dbs : List DbInstance)
    (cls : List DbCluster)
    (hrds : "rds" ∉ excl)
    (hv : getPaginatedResults renv.vpcsPages = .ok vpcs)
    (hsg : (regionDbSubnetDict renv region excl).1 = .ok dbsg)
    (hdb : getPaginatedResults renv.dbInstancesPages = .ok dbs)
    (hcl : getPaginatedResults renv.dbClustersPages = .ok cls)
    (hnd : (vpcs.map Vpc.vpcId).Nodup)
    (hrw : ∀ v ∈ vpcs, v.vpcId ≠ "region_wide")
    (hok : ∀ v ∈ vpcs, isOkE (buildVpcEntry renv region excl dbsg v).1 = true) :
    (∃ suffix, (buildRegionHierarchy renv excl region []).2
        = Call.describeVpcs region :: Call.describeDbSubnetGroups region :: suffix ∧
      ∀ c ∈ suffix, ∀ r, c ≠ Call.describeDbSubnetGroups r) ∧
    (∀ v ∈ vpcs, ∃ e,
      invLookup2 (buildRegionHierarchy renv excl region []).1 region v.vpcId
        = some (RegionValue.vpcData e) ∧
      e.resources.rdsInstances = some
        { dbInstances := (dbs.filter (fun db =>
            pyDictGet dbsg db.dbSubnetGroupName == some v.vpcId)).map mkDbInstanceEntry,
          clusters := (cls.filter (fun c =>
            pyDictGet dbsg c.dbSubnetGroup == some v.vpcId)).map mkDbClusterEntry }) ∧
    (∀ db ∈ dbs, pyDictGet dbsg db.dbSubnetGroupName = none →
      ∀ v ∈ vpcs,
        (pyDictGet dbsg db.dbSubnetGroupName == some v.vpcId) = false) := by
  refine ⟨buildRegionHierarchy_log_sg hv hrds, ?_, ?_⟩
  · intro v hvm
    have hvok := hok v hvm
    rw [isOkE_iff] at hvok
    obtain ⟨e, he⟩ := hvok
    refine ⟨e, buildRegionHierarchy_lookup_vpc hv hsg hnd hok hrw v hvm e he, ?_⟩
    obtain ⟨ec2o, rdso, efso, fsxo, rso, nc, sgs, h1, h2, h3, h4, h5, h6, h7, heq⟩ :=
      buildVpcEntry_ok_inv he
    obtain ⟨r, hr, hro⟩ := gateFetch_ok_inv hrds h2
    rw [getRdsResources_ok hdb hcl] at hr
    have hr' := hr.symm
    simp only [Except.ok.injEq] at hr'
    subst heq
    simp only
    rw [hro, hr']
  · intro db hdbm hnone v hvm
    rw [hnone]
    rfl

/-- C1, witness: the theorem applied to the rich one-region fixture with
two VPCs, a subnet group mapping grp1 to vpc-1, one DB instance on grp1,
one DB instance on a name absent from the mapping, and one Aurora cluster
on grp1. -/
theorem rds_prefetch_once_and_membership_witness :
    (∃ suffix, (buildRegionHierarchy richRegionEnv [] "r1" []).2
        = Call.describeVpcs "r1" :: Call.describeDbSubnetGroups "r1" :: suffix ∧
      ∀ c ∈ suffix, ∀ r, c ≠ Call.describeDbSubnetGroups r) ∧
    (∀ v ∈ [({ vpcId := "vpc-1" } : Vpc), { vpcId := "vpc-2" }], ∃ e,
      invLookup2 (buildRegionHierarchy richRegionEnv [] "r1" []).1 "r1" v.vpcId
        = some (RegionValue.vpcData e) ∧
      e.resources.rdsInstances = some
        { dbInstances := (([richDb, richDbOrphan].filter (fun db =>
            pyDictGet [("grp1", "vpc-1")] db.dbSubnetGroupName
              == some v.vpcId)).map mkDbInstanceEntry),
          clusters := (([richCluster].filter (fun c =>
            pyDictGet [("grp1", "vpc-1")] c.dbSubnetGroup
              == some v.vpcId)).map mkDbClusterEntry) }) ∧
    (∀ db ∈ [richDb, richDbOrphan],
      pyDictGet [("grp1", "vpc-1")] db.dbSubnetGroupName = none →
      ∀ v ∈ [({ vpcId := "vpc-1" } : Vpc), { vpcId := "vpc-2" }],
        (pyDictGet [("grp1", "vpc-1")] db.dbSubnetGroupName
          == some v.vpcId) = false) :=
  rds_prefetch_once_and_membership richRegionEnv [] "r1"
    [{ vpcId := "vpc-1" }, { vpcId := "vpc-2" }] [("grp1", "vpc-1")]
    [richDb, richDbOrphan] [richCluster]
    (by decide) rfl rfl rfl rfl (by decide) (by decide) (by decide)

/-- C10: for a region with zero VPCs processed without a region-level
exception, if dynamodb is not excluded the region still appears in the
Inventory with exactly its region-wide bucket (holding whatever table list
was fetched, possibly empty); if dynamodb is excluded the region is absent
from the Inventory entirely. -/
theorem region_presence_region_wide (env : Env) (excl : List String)
    (region : String)
    (hv : getPaginatedResults (env.regionData region).vpcsPages = .ok []) :
    ("dynamodb" ∉ excl →
      ∀ dbsg, (regionDbSubnetDict (env.regionData region) region excl).1 = .ok dbsg →
      ∀ ts, (getDynamodbTables (env.regionData region) region).1 = .ok ts →
      ∃ inv, (buildHierarchy env excl (some [region])).1 = .ok inv ∧
        assocLookup inv region
          = some [("region_wide", RegionValue.regionWide ts)]) ∧
    ("dynamodb" ∈ excl →
      ∃ inv, (buildHierarchy env excl (some [region])).1 = .ok inv ∧
        assocLookup inv region = none) := by
  constructor
  · intro hdy dbsg hsg ts ht
    refine ⟨(processRegions env excl [] [region]).1, rfl, ?_⟩
    simp only [processRegions]
    rcases hd : regionDbSubnetDict (env.regionData region) region excl with ⟨sgr, cs2⟩
    rw [hd] at hsg
    simp only at hsg
    subst hsg
    rcases ht' : getDynamodbTables (env.regionData region) region with ⟨tr, cs4⟩
    rw [ht'] at ht
    simp only at ht
    subst ht
    simp only [buildRegionHierarchy, getVpcs, pageCall, hv, hd, buildVpcLoop,
      if_neg hdy, ht']
    simp [hierInsert, assocInsert, assocLookup]
  · intro hdy
    refine ⟨(processRegions env excl [] [region]).1, rfl, ?_⟩
    simp only [processRegions]
    rcases hd : regionDbSubnetDict (env.regionData region) region excl with ⟨sgr, cs2⟩
    cases sgr with
    | error e2 =>
      simp [buildRegionHierarchy, getVpcs, pageCall, hv, hd, assocLookup]
    | ok dbsg =>
      simp [buildRegionHierarchy, getVpcs, pageCall, hv, hd, buildVpcLoop,
        if_pos hdy, assocLookup]

theorem buildVpcEntry_excluded_field {renv : RegionEnv} {region : String}
    {excl : List String} {dbsg : List (String × String)} {vpc : Vpc}
    {e : VpcEntry} {cat : String}
    (hcat : cat ∈ EXCLUDABLE_RESOURCES) (hex : cat ∈ excl)
    (he : (buildVpcEntry renv region excl dbsg vpc).1 = .ok e) :
    bundleHasCategory e.resources cat = false := by
  obtain ⟨ec2o, rdso, efso, fsxo, rso, nc, sgs, h1, h2, h3, h4, h5, h6, h7, heq⟩ :=
    buildVpcEntry_ok_inv he
  subst heq
  simp only [EXCLUDABLE_RESOURCES, List.mem_cons, List.mem_singleton,
    List.not_mem_nil, or_false] at hcat
  rcases hcat with h | h | h | h | h | h
  · subst h
    rw [gateFetch_pos hex] at h1
    simp only [Except.ok.injEq] at h1
    rw [← h1]
    rfl
  · subst h
    rw [gateFetch_pos hex] at h2
    simp only [Except.ok.injEq] at h2
    rw [← h2]
    rfl
  · subst h
    rw [gateFetch_pos hex] at h3
    simp only [Except.ok.injEq] at h3
    rw [← h3]
    rfl
  · subst h
    rw [gateFetch_pos hex] at h4
    simp only [Except.ok.injEq] at h4
    rw [← h4]
    rfl
  · subst h
    rw [gateFetch_pos hex] at h5
    simp only [Except.ok.injEq] at h5
    rw [← h5]
    rfl
  · subst h
    rfl

/-- C4: for every category of the fixed enumeration present in the
exclusion set, no provider call of that category is ever issued anywhere in
the build, no VPC entry of the returned Inventory carries that category's
key in its resource bundle, and, when the category is dynamodb, no region
entry carries a region-wide bucket. -/
theorem excluded_category_inert (env : Env) (excl : List String)
    (regions : Option (List String)) (cat : String)
    (hcat : cat ∈ EXCLUDABLE_RESOURCES) (hex : cat ∈ excl) :
    (∀ c ∈ (buildHierarchy env excl regions).2, callCategory c ≠ some cat) ∧
    (∀ inv, (buildHierarchy env excl regions).1 = .ok inv →
      invAll (fun p =>
        (∀ e, p.2 = RegionValue.vpcData e →
          bundleHasCategory e.resources cat = false) ∧
        (∀ ts, p.2 = RegionValue.regionWide ts → cat ≠ "dynamodb")) inv) := by
  constructor
  · intro c hc hcc
    exact buildHierarchy_calls_allowed env excl regions c hc cat hcc hex
  · intro inv h1
    refine buildHierarchy_invAll h1 ?_ ?_
    · intro region vpcs hvp dbsg v hvm e he
      constructor
      · intro e' he'
        have : e = e' := by injection he'
        subst this
        exact buildVpcEntry_excluded_field hcat hex he
      · intro ts hts
        simp at hts
    · intro ts hdy
      constructor
      · intro e he'
        simp at he'
      · intro ts' _ hdd
        subst hdd
        exact hdy hex

/-- C4, witness: the theorem applied to the rich fixture with rds
excluded: no rds-category call occurs in the full build log, and every
entry of the returned Inventory satisfies the bundle property. -/
theorem excluded_category_inert_witness :
    ("rds" ∈ EXCLUDABLE_RESOURCES ∧ "rds" ∈ ["rds"]) ∧
    (∀ c ∈ (buildHierarchy envRich ["rds"] (some ["r1"])).2,
        callCategory c ≠ some "rds") ∧
    (∀ inv, (buildHierarchy envRich ["rds"] (some ["r1"])).1 = .ok inv →
      invAll (fun p =>
        (∀ e, p.2 = RegionValue.vpcData e →
          bundleHasCategory e.resources "rds" = false) ∧
        (∀ ts, p.2 = RegionValue.regionWide ts → "rds" ≠ "dynamodb")) inv) :=
  ⟨⟨by decide, by decide⟩,
   excluded_category_inert envRich ["rds"] (some ["r1"]) "rds"
    (by decide) (by decide)⟩

/-- C6, counterexample: in region r1 the instance listing of the second
VPC raises a non-ClientError exception after the first VPC's entry was
already recorded; the exception is caught at the region level, but r1 is
NOT omitted from the Inventory: it stays present with the first VPC's
entry (and without the second VPC and without a region-wide bucket), while
the subsequent region r2 is processed completely, refuting the claim that
a region-scoped exception causes the region to be omitted. -/
theorem region_failure_not_omitted_counterexample :
    (buildVpcLoop c6RegionEnv1 "r1" [] [] []
        [{ vpcId := "vpc-1" }, { vpcId := "vpc-2" }]).2.1
      = some (AwsErr.otherError "conn") ∧
    (assocLookup (okInventory (buildHierarchy envC6 [] (some ["r1", "r2"])).1)
        "r1").isSome = true ∧
    (invLookup2 (okInventory (buildHierarchy envC6 [] (some ["r1", "r2"])).1)
        "r1" "vpc-1").isSome = true ∧
    invLookup2 (okInventory (buildHierarchy envC6 [] (some ["r1", "r2"])).1)
        "r1" "vpc-2" = none ∧
    invLookup2 (okInventory (buildHierarchy envC6 [] (some ["r1", "r2"])).1)
        "r1" "region_wide" = none ∧
    (invLookup2 (okInventory (buildHierarchy envC6 [] (some ["r1", "r2"])).1)
        "r2" "vpc-3").isSome = true ∧
    (invLookup2 (okInventory (buildHierarchy envC6 [] (some ["r1", "r2"])).1)
        "r2" "region_wide").isSome = true := by
  decide

/-- C6, amended: every exception raised while building one region is
caught at the region level with a warning or error logged, so no
region-scoped failure aborts the overall run: regions other than the
failing one are untouched by its build, and every subsequent region in the
sequence is still processed; however the failing region is omitted from
the Inventory only when the exception fires before its first VPC entry is
recorded — an exception later in the region's build leaves the region
present with the partially accumulated entries. -/
theorem region_failure_isolation (env : Env) (excl : List String)
    (region r' : String) (rest : List String) (inv : Inventory)
    (h : r' ≠ region) :
    assocLookup
        (buildRegionHierarchy (env.regionData region) excl region inv).1 r'
      = assocLookup inv r' ∧
    processRegions env excl inv (region :: rest)
      = ((processRegions env excl
            (buildRegionHierarchy (env.regionData region) excl region inv).1
            rest).1,
         (buildRegionHierarchy (env.regionData region) excl region inv).2 ++
         (processRegions env excl
            (buildRegionHierarchy (env.regionData region) excl region inv).1
            rest).2) :=
  ⟨buildRegionHierarchy_other_region _ _ _ _ _ h, rfl⟩

/-- C6, witness: the amended theorem applied to the faulty two-region
fixture: region r1's build does not touch r2's entry, and r2 is processed
right after r1. -/
theorem region_failure_isolation_witness :
    assocLookup
        (buildRegionHierarchy (envC6.regionData "r1") [] "r1" []).1 "r2"
      = assocLookup ([] : Inventory) "r2" ∧
    processRegions envC6 [] [] ["r1", "r2"]
      = ((processRegions envC6 []
            (buildRegionHierarchy (envC6.regionData "r1") [] "r1" []).1
            ["r2"]).1,
         (buildRegionHierarchy (envC6.regionData "r1") [] "r1" []).2 ++
         (processRegions envC6 []
            (buildRegionHierarchy (envC6.regionData "r1") [] "r1" []).1
            ["r2"]).2) :=
  region_failure_isolation envC6 [] "r1" "r2" ["r2"] [] (by decide)

/-- C7, counterexample: with a VPC whose id is the literal string
region_wide and dynamodb not excluded, the VPC's entry is built (the loop
body succeeds) and then the region-wide bucket, inserted at the same key
after the VPC loop, overwrites it: the final region map holds only the
DynamoDB bucket, so the reserved key is NOT disjoint from all possible VPC
ids and the bucket does overwrite a VPC entry. -/
theorem region_wide_key_collision_counterexample :
    getPaginatedResults c7RegionEnv.vpcsPages
      = .ok [{ vpcId := "region_wide" }] ∧
    isOkE (buildVpcEntry c7RegionEnv "r1" [] [] { vpcId := "region_wide" }).1
      = true ∧
    assocLookup (buildRegionHierarchy c7RegionEnv [] "r1" []).1 "r1"
      = some [("region_wide", RegionValue.regionWide [])] := by
  refine ⟨rfl, by decide, by decide⟩

/-- C7, amended: provided no VPC returned by the region's VPC listing has
the literal id region_wide (true of real AWS VPC ids, which match
vpc-hex, but not enforced by the code), the region-wide bucket key
collides with no VPC entry: every VPC entry of the built region map sits
at a key different from region_wide, and the value at the region_wide
key, when present, is always the DynamoDB bucket; a VPC whose id is
exactly region_wide would instead be overwritten by the bucket. -/
theorem region_wide_key_reserved (renv : RegionEnv) (excl : List String)
    (region : String) (vpcs : List Vpc)
    (hv : getPaginatedResults renv.vpcsPages = .ok vpcs)
    (hnrw : ∀ v ∈ vpcs, v.vpcId ≠ "region_wide") :
    invAll (fun p => ∀ e, p.2 = RegionValue.vpcData e → p.1 ≠ "region_wide")
      (buildRegionHierarchy renv excl region []).1 ∧
    (∀ rm, assocLookup (buildRegionHierarchy renv excl region []).1 region
        = some rm →
      ∀ x, assocLookup rm "region_wide" = some x →
        ∃ ts, x = RegionValue.regionWide ts) := by
  have hall : invAll
      (fun p => ∀ e, p.2 = RegionValue.vpcData e → p.1 ≠ "region_wide")
      (buildRegionHierarchy renv excl region []).1 := by
    refine buildRegionHierarchy_invAll renv excl region [] invAll_nil ?_ ?_
    · intro vpcs' hv' dbsg v hvm e he
      have hveq : vpcs' = vpcs := by
        rw [hv] at hv'
        simpa using hv'.symm
      subst hveq
      intro e' he'
      exact hnrw v hvm
    · intro ts _ e he
      simp at he
  refine ⟨hall, ?_⟩
  intro rm hrm x hx
  have hpair := hall (region, rm) (assocLookup_mem hrm)
    ("region_wide", x) (assocLookup_mem hx)
  cases x with
  | vpcData e => exact absurd rfl (hpair e rfl)
  | regionWide ts => exact ⟨ts, rfl⟩

/-- C7, witness: the amended theorem applied to the rich fixture whose VPC
ids are vpc-1 and vpc-2. -/
theorem region_wide_key_reserved_witness :
    invAll (fun p => ∀ e, p.2 = RegionValue.vpcData e → p.1 ≠ "region_wide")
      (buildRegionHierarchy richRegionEnv [] "r1" []).1 ∧
    (∀ rm, assocLookup (buildRegionHierarchy richRegionEnv [] "r1" []).1 "r1"
        = some rm →
      ∀ x, assocLookup rm "region_wide" = some x →
        ∃ ts, x = RegionValue.regionWide ts) :=
  region_wide_key_reserved richRegionEnv [] "r1"
    [{ vpcId := "vpc-1" }, { vpcId := "vpc-2" }] rfl (by decide)

theorem efsScanMountTargets_eq_any (entry : EfsEntry) (vpcId : String) :
    ∀ mts : List MountTarget,
    efsScanMountTargets entry vpcId mts
      = if mts.any (fun mt => mt.vpcId == some vpcId) then [entry] else [] := by
  intro mts
  induction mts with
  | nil => simp [efsScanMountTargets]
  | cons mt rest ih =>
    cases h : (mt.vpcId == some vpcId) with
    | true => simp [efsScanMountTargets, h]
    | false => simp [efsScanMountTargets, h, ih]

theorem efsLoop_ok {renv : RegionEnv} {region vpcId : String} :
    ∀ fss : List EfsFileSystem,
    (∀ fs ∈ fss, isOtherE (renv.mountTargetsResult fs.fileSystemId) = false) →
    (efsLoop renv region vpcId fss).1 = .ok (fss.filterMap (fun fs =>
      match renv.mountTargetsResult fs.fileSystemId with
      | .ok mts => if mts.any (fun mt => mt.vpcId == some vpcId)
                   then some (mkEfsEntry fs) else none
      | .error _ => none)) := by
  intro fss
  induction fss with
  | nil => intro h; rfl
  | cons fs rest ih =>
    intro h
    have hother := h fs (by simp)
    have ihr := ih (fun fs' h' => h fs' (by simp [h']))
    cases hmt : renv.mountTargetsResult fs.fileSystemId with
    | error e =>
      cases e with
      | otherError m =>
        rw [hmt] at hother
        simp [isOtherE] at hother
      | clientError code =>
        simp [efsLoop, hmt, List.filterMap_cons, ihr, -List.any_eq_true]
    | ok mts =>
      simp only [efsLoop, hmt]
      rw [efsScanMountTargets_eq_any]
      cases hany : mts.any (fun mt => mt.vpcId == some vpcId) <;>
        simp [List.filterMap_cons, hmt, hany, ihr, Except.map, -List.any_eq_true]

theorem countP_filterMap_le {α β : Type} (g : α → Option String)
    (gb : β → Option String) (f : α → Option β)
    (hf : ∀ a b, f a = some b → gb b = g a) :
    ∀ (l : List α) (x : Option String),
    (l.filterMap f).countP (fun b => gb b == x)
      ≤ (l.map g).countP (fun y => y == x) := by
  intro l
  induction l with
  | nil => intro x; simp
  | cons a rest ih =>
    intro x
    cases hfa : f a with
    | none =>
      simp only [List.filterMap_cons, hfa, List.map_cons, List.countP_cons]
      exact le_trans (ih x) (Nat.le_add_right _ _)
    | some b =>
      have hgb := hf a b hfa
      simp only [List.filterMap_cons, hfa, List.map_cons, List.countP_cons, hgb]
      exact Nat.add_le_add (ih x) (le_refl _)

theorem nodup_countP_le_one {α : Type} [BEq α] [LawfulBEq α] {l : List α}
    (h : l.Nodup) (x : α) : l.countP (fun y => y == x) ≤ 1 := by
  induction l with
  | nil => simp
  | cons a rest ih =>
    rw [List.nodup_cons] at h
    simp only [List.countP_cons]
    cases hax : (a == x) with
    | false => simpa [hax] using ih h.2
    | true =>
      have hax' : a = x := eq_of_beq hax
      subst hax'
      have hz : rest.countP (fun y => y == a) = 0 := by
        rw [List.countP_eq_zero]
        intro y hy hbeq
        exact h.1 (eq_of_beq hbeq ▸ hy)
      simp [hz]

theorem perm_any {α : Type} {l l' : List α} (h : l.Perm l') (p : α → Bool) :
    l.any p = l'.any p := by
  cases hl : l.any p with
  | true =>
    rw [List.any_eq_true] at hl
    obtain ⟨x, hx, hpx⟩ := hl
    exact (List.any_eq_true.mpr ⟨x, h.mem_iff.mp hx, hpx⟩).symm
  | false =>
    cases hl' : l'.any p with
    | false => rfl
    | true =>
      rw [List.any_eq_true] at hl'
      obtain ⟨x, hx, hpx⟩ := hl'
      have hcontra : l.any p = true :=
        List.any_eq_true.mpr ⟨x, h.mem_iff.mpr hx, hpx⟩
      rw [hl] at hcontra
      cases hcontra

theorem efsLoop_mtSim {region vpcId : String} :
    ∀ (fss : List EfsFileSystem) (renv renv' : RegionEnv),
    (∀ fid, mtSim (renv.mountTargetsResult fid) (renv'.mountTargetsResult fid)) →
    efsLoop renv region vpcId fss = efsLoop renv' region vpcId fss := by
  intro fss
  induction fss with
  | nil => intro renv renv' h; rfl
  | cons fs rest ih =>
    intro renv renv' h
    have hsim := h fs.fileSystemId
    cases ha : renv.mountTargetsResult fs.fileSystemId with
    | error e =>
      cases hb : renv'.mountTargetsResult fs.fileSystemId with
      | error e' =>
        rw [ha, hb] at hsim
        simp only [mtSim] at hsim
        have he : e = e' := by simpa using hsim
        subst he
        cases e with
        | otherError m => simp [efsLoop, ha, hb]
        | clientError c => simp [efsLoop, ha, hb, ih renv renv' h]
      | ok l' =>
        rw [ha, hb] at hsim
        simp [mtSim] at hsim
    | ok l =>
      cases hb : renv'.mountTargetsResult fs.fileSystemId with
      | error e' =>
        rw [ha, hb] at hsim
        simp [mtSim] at hsim
      | ok l' =>
        rw [ha, hb] at hsim
        simp only [mtSim] at hsim
        have hscan : efsScanMountTargets (mkEfsEntry fs) vpcId l
            = efsScanMountTargets (mkEfsEntry fs) vpcId l' := by
          rw [efsScanMountTargets_eq_any, efsScanMountTargets_eq_any,
            perm_any hsim]
        simp [efsLoop, ha, hb, ih renv renv' h, hscan]

/-- C2: when the file-system listing succeeds, no mount-target call raises
a non-ClientError exception, and the listed file-system ids are distinct,
the efs_filesystems list of VPC V is exactly the listed file systems,
kept in order, that have at least one mount target in V (the inner search
is first-match and short-circuits, which equals the existential test);
hence every file system appears at most once, it appears iff one of its
mount targets carries V's VPC id, and the list is unchanged under any
reordering of any file system's mount-target list. -/
theorem efs_membership_once_and_perm (renv : RegionEnv)
    (region vpcId : String) (fss : List EfsFileSystem)
    (hfs : getPaginatedResults renv.efsPages = .ok fss)
    (hmt : ∀ fs ∈ fss, isOtherE (renv.mountTargetsResult fs.fileSystemId) = false)
    (hnd : (fss.map EfsFileSystem.fileSystemId).Nodup) :
    ∃ res, (getEfsResources renv region vpcId).1 = .ok res ∧
      res = fss.filterMap (fun fs =>
        match renv.mountTargetsResult fs.fileSystemId with
        | .ok mts => if mts.any (fun mt => mt.vpcId == some vpcId)
                     then some (mkEfsEntry fs) else none
        | .error _ => none) ∧
      (∀ (entry : EfsEntry) (mts : List MountTarget),
        efsScanMountTargets entry vpcId mts
          = if mts.any (fun mt => mt.vpcId == some vpcId)
            then [entry] else []) ∧
      (∀ fs ∈ fss,
        res.countP (fun en => en.fileSystemId == fs.fileSystemId) ≤ 1) ∧
      (∀ fs ∈ fss, ∀ mts, renv.mountTargetsResult fs.fileSystemId = .ok mts →
        ((∃ en ∈ res, en.fileSystemId = fs.fileSystemId)
          ↔ ∃ mt ∈ mts, mt.vpcId = some vpcId)) ∧
      (∀ renv' : RegionEnv, renv'.efsPages = renv.efsPages →
        (∀ fid, mtSim (renv.mountTargetsResult fid)
          (renv'.mountTargetsResult fid)) →
        (getEfsResources renv' region vpcId).1 = .ok res) := by
  refine ⟨fss.filterMap (fun fs =>
      match renv.mountTargetsResult fs.fileSystemId with
      | .ok mts => if mts.any (fun mt => mt.vpcId == some vpcId)
                   then some (mkEfsEntry fs) else none
      | .error _ => none), ?_, rfl,
      (fun entry mts => efsScanMountTargets_eq_any entry vpcId mts),
      ?_, ?_, ?_⟩
  · have hfs' : (pageCall (Call.describeEfsFileSystems region)
        renv.efsPages).1 = .ok fss := hfs
    rw [getEfsResources, stepThen_eq_ok hfs']
    show (efsLoop renv region vpcId fss).1 = _
    exact efsLoop_ok fss hmt
  · intro fs hfsm
    have hb := countP_filterMap_le EfsFileSystem.fileSystemId
      EfsEntry.fileSystemId
      (fun fs' =>
        match renv.mountTargetsResult fs'.fileSystemId with
        | .ok mts => if mts.any (fun mt => mt.vpcId == some vpcId)
                     then some (mkEfsEntry fs') else none
        | .error _ => none)
      ?_ fss fs.fileSystemId
    · exact le_trans hb (nodup_countP_le_one hnd fs.fileSystemId)
    · intro a b hab
      simp only at hab
      split at hab
      · split at hab
        · simp only [Option.some.injEq] at hab
          subst hab
          rfl
        · simp at hab
      · simp at hab
  · intro fs hfsm mts hmts
    constructor
    · rintro ⟨en, hen, heq⟩
      rw [List.mem_filterMap] at hen
      obtain ⟨fs', hfs'm, hfs'e⟩ := hen
      try simp only at hfs'e
      split at hfs'e
      · rename_i mts' hma
        split at hfs'e
        · rename_i hany
          simp only [Option.some.injEq] at hfs'e
          subst hfs'e
          have hid : fs'.fileSystemId = fs.fileSystemId := heq
          have hsame : fs' = fs :=
            List.inj_on_of_nodup_map hnd hfs'm hfsm hid
          subst hsame
          rw [hmts] at hma
          have hmeq : mts = mts' := by simpa using hma
          subst hmeq
          rw [List.any_eq_true] at hany
          obtain ⟨mt, hmtm, hmteq⟩ := hany
          exact ⟨mt, hmtm, by simpa using hmteq⟩
        · simp at hfs'e
      · simp at hfs'e
    · rintro ⟨mt, hmtm, hmteq⟩
      refine ⟨mkEfsEntry fs, ?_, rfl⟩
      rw [List.mem_filterMap]
      refine ⟨fs, hfsm, ?_⟩
      have hany : mts.any (fun mt => mt.vpcId == some vpcId) = true :=
        List.any_eq_true.mpr ⟨mt, hmtm, by simpa using hmteq⟩
      simp [hmts, hany]
  · intro renv' hpages hsim
    have hfs'' : (pageCall (Call.describeEfsFileSystems region)
        renv'.efsPages).1 = .ok fss := by
      show getPaginatedResults renv'.efsPages = .ok fss
      rw [hpages]
      exact hfs
    rw [getEfsResources, stepThen_eq_ok hfs'']
    show (efsLoop renv' region vpcId fss).1 = _
    rw [← efsLoop_mtSim fss renv renv' hsim]
    exact efsLoop_ok fss hmt

theorem gateFetch_congr {γ : Type} {p q : Prop} [Decidable p] [Decidable q]
    (h : p ↔ q) (fetch : Except AwsErr γ × List Call) :
    gateFetch p fetch = gateFetch q fetch := by
  by_cases hp : p
  · simp [gateFetch, hp, h.mp hp]
  · have hq : ¬ q := fun hq => hp (h.mpr hq)
    simp [gateFetch, hp, hq]

theorem buildVpcEntry_excl_congr {renv : RegionEnv} {region : String}
    {dbsg : List (String × String)} {vpc : Vpc} {excl excl' : List String}
    (h : ∀ c ∈ EXCLUDABLE_RESOURCES, (c ∈ excl ↔ c ∈ excl')) :
    buildVpcEntry renv region excl dbsg vpc
      = buildVpcEntry renv region excl' dbsg vpc := by
  have e1 := h "ec2" (by simp [EXCLUDABLE_RESOURCES])
  have e2 := h "rds" (by simp [EXCLUDABLE_RESOURCES])
  have e3 := h "efs" (by simp [EXCLUDABLE_RESOURCES])
  have e4 := h "fsx" (by simp [EXCLUDABLE_RESOURCES])
  have e5 := h "redshift" (by simp [EXCLUDABLE_RESOURCES])
  simp only [buildVpcEntry, gateFetch_congr e1, gateFetch_congr e2,
    gateFetch_congr e3, gateFetch_congr e4, gateFetch_congr e5]

theorem buildVpcLoop_excl_congr {renv : RegionEnv} {region : String}
    {dbsg : List (String × String)} {excl excl' : List String}
    (h : ∀ c ∈ EXCLUDABLE_RESOURCES, (c ∈ excl ↔ c ∈ excl')) :
    ∀ (vpcs : List Vpc) (inv : Inventory),
    buildVpcLoop renv region excl dbsg inv vpcs
      = buildVpcLoop renv region excl' dbsg inv vpcs := by
  intro vpcs
  induction vpcs with
  | nil => intro inv; rfl
  | cons v rest ih =>
    intro inv
    simp only [buildVpcLoop, buildVpcEntry_excl_congr h, ih]

theorem regionDbSubnetDict_excl_congr {renv : RegionEnv} {region : String}
    {excl excl' : List String}
    (h : ∀ c ∈ EXCLUDABLE_RESOURCES, (c ∈ excl ↔ c ∈ excl')) :
    regionDbSubnetDict renv region excl = regionDbSubnetDict renv region excl' := by
  have e := h "rds" (by simp [EXCLUDABLE_RESOURCES])
  by_cases hp : "rds" ∈ excl
  · simp [regionDbSubnetDict, hp, e.mp hp]
  · have hq : "rds" ∉ excl' := fun hq => hp (e.mpr hq)
    simp [regionDbSubnetDict, hp, hq]

theorem buildRegionHierarchy_excl_congr {renv : RegionEnv}
    {excl excl' : List String}
    (h : ∀ c ∈ EXCLUDABLE_RESOURCES, (c ∈ excl ↔ c ∈ excl')) :
    ∀ (region : String) (inv : Inventory),
    buildRegionHierarchy renv excl region inv
      = buildRegionHierarchy renv excl' region inv := by
  intro region inv
  have hdyn : ("dynamodb" ∈ excl) = ("dynamodb" ∈ excl') :=
    propext (h "dynamodb" (by simp [EXCLUDABLE_RESOURCES]))
  simp only [buildRegionHierarchy, regionDbSubnetDict_excl_congr h,
    buildVpcLoop_excl_congr h, hdyn]

theorem processRegions_excl_congr {env : Env} {excl excl' : List String}
    (h : ∀ c ∈ EXCLUDABLE_RESOURCES, (c ∈ excl ↔ c ∈ excl')) :
    ∀ (regions : List String) (inv : Inventory),
    processRegions env excl inv regions
      = processRegions env excl' inv regions := by
  intro regions
  induction regions with
  | nil => intro inv; rfl
  | cons r rest ih =>
    intro inv
    simp only [processRegions, buildRegionHierarchy_excl_congr h, ih]

theorem buildHierarchy_excl_congr {env : Env} {excl excl' : List String}
    (h : ∀ c ∈ EXCLUDABLE_RESOURCES, (c ∈ excl ↔ c ∈ excl'))
    (regions : Option (List String)) :
    buildHierarchy env excl regions = buildHierarchy env excl' regions := by
  rcases regions with _ | rs
  · cases hdr : env.describeRegionsResult with
    | error e => cases e <;> simp [buildHierarchy, hdr]
    | ok discovered =>
      simp [buildHierarchy, hdr, processRegions_excl_congr h]
  · rcases rs with _ | ⟨r, rs⟩
    · rw [buildHierarchy_empty_regions, buildHierarchy_empty_regions]
      cases hdr : env.describeRegionsResult with
      | error e => cases e <;> simp [buildHierarchy, hdr]
      | ok discovered =>
        simp [buildHierarchy, hdr, processRegions_excl_congr h]
    · simp only [buildHierarchy, processRegions_excl_congr h]

/-- C8, counterexample: an unknown category name supplied at construction
time is NOT rejected with an error: AWSResourceHierarchy.__init__ stores
the set without any validation, and the unknown name then matches nothing
during the build — on a provider with every category populated, the whole
build (result and calls alike) is identical to a build with no exclusion
set at all. -/
theorem unknown_exclusion_accepted_counterexample :
    initExcludedResources (some ["bogus"]) = ["bogus"] ∧
    buildHierarchy envRich (initExcludedResources (some ["bogus"]))
        (some ["r1"])
      = buildHierarchy envRich (initExcludedResources none) (some ["r1"]) :=
  ⟨rfl, rfl⟩

/-- C8, amended: unknown category names are rejected at the CLI layer (the
click.Choice declaration on the --exclude option accepts a value only when
it matches one of the six category names up to case), but the constructor
itself performs no validation: an unknown name is silently accepted and
matches nothing during the build — adding it to the exclusion set leaves
the entire build unchanged. -/
theorem unknown_exclusion_inert (v : String) (env : Env)
    (regions : Option (List String)) (excl : List String)
    (hvx : v ∉ EXCLUDABLE_RESOURCES)
    (hlc : ∀ c ∈ EXCLUDABLE_RESOURCES, asciiLower v ≠ asciiLower c) :
    mainExcludeAccepted v = false ∧
    buildHierarchy env (v :: excl) regions = buildHierarchy env excl regions := by
  constructor
  · rw [mainExcludeAccepted, List.any_eq_false]
    intro c hc hbe
    exact hlc c hc (eq_of_beq hbe).symm
  · refine buildHierarchy_excl_congr ?_ regions
    intro c hc
    constructor
    · intro hmem
      rcases List.mem_cons.mp hmem with hcv | hmem'
      · exact absurd (hcv ▸ hc) hvx
      · exact hmem'
    · intro hmem
      exact List.mem_cons_of_mem v hmem

/-- C8, witness: the amended theorem applied to the name bogus, the rich
provider, one region and the empty exclusion set. -/
theorem unknown_exclusion_inert_witness :
    mainExcludeAccepted "bogus" = false ∧
    buildHierarchy envRich ["bogus"] (some ["r1"])
      = buildHierarchy envRich [] (some ["r1"]) :=
  unknown_exclusion_inert "bogus" envRich (some ["r1"]) []
    (by decide) (by decide)

/-- C9: the end-to-end scenario: one region, one VPC, one EC2 instance
with two EBS-backed block device mappings, built with fsx and redshift
excluded: the VPC entry's resource bundle carries exactly the keys
ec2_instances, rds_instances and efs_filesystems (the fsx and redshift
keys are absent, and dynamodb never appears at the VPC level because it
lives only in the region-wide bucket), and the instance's entry carries
exactly 2 EBS volume entries. -/
theorem end_to_end_scenario :
    invLookup2 (okInventory
        (buildHierarchy envC9 ["fsx", "redshift"] (some ["us-east-1"])).1)
        "us-east-1" "vpc-1"
      = some (RegionValue.vpcData c9Entry) ∧
    c9Entry.resources.ec2Instances.isSome = true ∧
    c9Entry.resources.rdsInstances.isSome = true ∧
    c9Entry.resources.efsFilesystems.isSome = true ∧
    c9Entry.resources.fsxFilesystems = none ∧
    c9Entry.resources.redshiftClusters = none ∧
    (c9Entry.resources.ec2Instances.getD []).map
        (fun i => i.ebsVolumes.length) = [2] := by
  refine ⟨by decide, rfl, rfl, rfl, rfl, rfl, by decide⟩

/-- C2, witness: the theorem applied to the rich fixture, whose single EFS
file system has its first mount target in a foreign VPC and its second in
vpc-1. -/
theorem efs_membership_once_and_perm_witness :
    ∃ res, (getEfsResources richRegionEnv "r1" "vpc-1").1 = .ok res ∧
      res = [richFs].filterMap (fun fs =>
        match richRegionEnv.mountTargetsResult fs.fileSystemId with
        | .ok mts => if mts.any (fun mt => mt.vpcId == some "vpc-1")
                     then some (mkEfsEntry fs) else none
        | .error _ => none) ∧
      (∀ (entry : EfsEntry) (mts : List MountTarget),
        efsScanMountTargets entry "vpc-1" mts
          = if mts.any (fun mt => mt.vpcId == some "vpc-1")
            then [entry] else []) ∧
      (∀ fs ∈ [richFs],
        res.countP (fun en => en.fileSystemId == fs.fileSystemId) ≤ 1) ∧
      (∀ fs ∈ [richFs], ∀ mts,
        richRegionEnv.mountTargetsResult fs.fileSystemId = .ok mts →
        ((∃ en ∈ res, en.fileSystemId = fs.fileSystemId)
          ↔ ∃ mt ∈ mts, mt.vpcId = some "vpc-1")) ∧
      (∀ renv' : RegionEnv, renv'.efsPages = richRegionEnv.efsPages →
        (∀ fid, mtSim (richRegionEnv.mountTargetsResult fid)
          (renv'.mountTargetsResult fid)) →
        (getEfsResources renv' "r1" "vpc-1").1 = .ok res) :=
  efs_membership_once_and_perm richRegionEnv "r1" "vpc-1" [richFs]
    rfl (by decide) (by decide)

/-- C10, witness: the theorem applied to the empty healthy region, once
with nothing excluded (region present with an empty region-wide table
list) and once with dynamodb excluded (region absent). -/
theorem region_presence_region_wide_witness :
    (∃ inv, (buildHierarchy envEmptyRegion [] (some ["r1"])).1 = .ok inv ∧
      assocLookup inv "r1"
        = some [("region_wide", RegionValue.regionWide [])]) ∧
    (∃ inv,
      (buildHierarchy envEmptyRegion ["dynamodb"] (some ["r1"])).1 = .ok inv ∧
      assocLookup inv "r1" = none) :=
  ⟨(region_presence_region_wide envEmptyRegion [] "r1" rfl).1
      (by decide) [] rfl [] rfl,
   (region_presence_region_wide envEmptyRegion ["dynamodb"] "r1" rfl).2
      (by decide)⟩

/-- C3, counterexample: with one already-fetched page holding one item and
a ClientError on the next page fetch, _get_paginated_results returns the
EMPTY list, not the accumulated items from the pages already fetched, so
the claim that a part-way failure yields the accumulated (truncated)
result is false on this input. -/
theorem pagination_failure_discards_counterexample :
    getPaginatedResults
      [Except.ok [1], Except.error (AwsErr.clientError "Throttling")]
      = .ok ([] : List Nat) ∧ ([] : List Nat) ≠ [1] := by
  constructor
  · rfl
  · decide

/-- C3, amended: when no page fetch fails, the result is the concatenation
of all pages' items in original page order (fully drained); but when a
page fetch fails with a ClientError part-way through, the call returns the
empty list, discarding the pages already fetched, rather than the
accumulated truncated result. -/
theorem pagination_drain_and_failure {α : Type} (okPages : List (List α))
    (code : String) (rest : List (PageResult α)) :
    getPaginatedResults (okPages.map Except.ok) = .ok okPages.flatten ∧
    getPaginatedResults
      (okPages.map Except.ok ++ Except.error (AwsErr.clientError code) :: rest)
      = .ok [] := by
  constructor
  · simpa using getPaginatedResultsGo_ok okPages []
  · simpa using getPaginatedResultsGo_clientError okPages [] code rest

/-- C5, counterexample: when region discovery fails with an exception
outside the ClientError family (here a network failure), build_hierarchy
does NOT return an empty Inventory: the exception propagates to the
caller, refuting the claim that any region-listing failure (authorization
or network) is swallowed. -/
theorem region_discovery_network_error_counterexample :
    (buildHierarchy envC5network [] none).1 =
      .error (AwsErr.otherError "EndpointConnectionError") ∧
    ∀ inv : Inventory, (buildHierarchy envC5network [] none).1 ≠ .ok inv := by
  constructor
  · rfl
  · intro inv h
    simp [buildHierarchy, envC5network] at h

/-- C5, amended: when BuildInventory is called with no explicit regions
(none, or the empty list, both falsy in the source) and the region-listing
call fails with a ClientError (e.g. an authorization failure), the
operation returns an empty Inventory after the single discovery call and
does not raise; a failure outside the ClientError family (e.g. a network
failure) instead propagates to the caller. -/
theorem region_discovery_client_error_empty (env : Env) (excl : List String)
    (regions : Option (List String))
    (hr : regions = none ∨ regions = some []) (code : String)
    (hd : env.describeRegionsResult = .error (AwsErr.clientError code)) :
    buildHierarchy env excl regions = (.ok [], [Call.describeRegions]) := by
  rcases hr with h | h <;> subst h <;> simp [buildHierarchy, hd]

/-- C5, witness: the amended theorem applied to the concrete provider
whose region discovery raises a ClientError with code AuthFailure. -/
theorem region_discovery_client_error_empty_witness :
    (envC5client.describeRegionsResult =
      .error (AwsErr.clientError "AuthFailure")) ∧
    buildHierarchy envC5client [] none = (.ok [], [Call.describeRegions]) :=
  ⟨rfl, region_discovery_client_error_empty envC5client [] none (Or.inl rfl)
    "AuthFailure" rfl⟩

end AwsCollect
